import Mathlib

/-!
Verification development for the cuDNN-backed batch normalization operators of
`chainerx/cuda/cuda_device/batch_norm.cc` (forward-training, backward and
fixed/inference forward).

The embedding models device memory as a list of rational-valued storage
buffers indexed by storage id; an `Arr` is a view (storage id plus
dtype/device/shape/contiguity metadata), mirroring the `chainerx::Array`
handle.  The external collaborators (array primitives and the cuDNN engine
calls) are modelled from the spec where noted.
-/

deriving instance DecidableEq for Except

namespace chainerx

attribute [local semireducible] Rat.add Rat.sub Rat.mul Rat.inv

/-- Floating-point element dtypes relevant to batch normalization.  These are
the three dtypes the source's `CudnnBNTensorDescriptor::GetDtype` can return
(`kFloat16`, `kFloat32`, `kFloat64`); the source asserts that all tensors
entering these operators have float kind. -/
inductive Dtype where
  | kFloat16
  | kFloat32
  | kFloat64
deriving DecidableEq, Repr

/-- Modelled from the spec: the grid granularity (2 to the number of stored
fraction bits: 10, 23 and 52) used by the value-level model of dtype
conversion (the external `Array::AsType` / contiguous-cast primitives).  A
cast rounds the value onto a fixed grid of this granularity, so a cast to a
narrower dtype genuinely loses precision. -/
def dtypeScale : Dtype → ℚ
  | .kFloat16 => 1024
  | .kFloat32 => 8388608
  | .kFloat64 => 4503599627370496

/-- Modelled from the spec: value-level effect of converting a stored value to
dtype `dt` (external array abstraction, `§6`: "dtype-cast").  The value is
rounded down onto the dtype's representable grid. -/
def castVal (dt : Dtype) (q : ℚ) : ℚ :=
  (((q * dtypeScale dt).floor : ℤ) : ℚ) / dtypeScale dt

/-- One storage buffer of device memory: the sequence of element values held
by one allocation. -/
abbrev Storage := List ℚ

/-- Device memory: storage buffers indexed by storage id (position in the
list).  Allocation appends a fresh buffer. -/
abbrev Mem := List Storage

/-- Read the buffer at storage id `i` (empty if unallocated). -/
def Mem.read (m : Mem) (i : ℕ) : Storage := m.getD i []

/-- Overwrite the buffer at storage id `i` (no-op if unallocated). -/
def Mem.write (m : Mem) (i : ℕ) (d : Storage) : Mem := m.set i d

/-- Allocate a fresh buffer holding `d`; returns the new memory and the fresh
storage id. -/
def Mem.alloc (m : Mem) (d : Storage) : Mem × ℕ := (m ++ [d], m.length)

/-- An array handle: a storage id plus view metadata, mirroring the fields of
`chainerx::Array` that this file's operators inspect (device, dtype, shape,
contiguity). -/
structure Arr where
  sid : ℕ
  device : ℕ
  dtype : Dtype
  shape : List ℕ
  isContiguous : Bool
deriving DecidableEq, Repr

/-- `Shape::GetTotalSize`: total element count of a shape. -/
def GetTotalSize (shape : List ℕ) : ℕ := shape.foldl (fun a b => a * b) 1

/-- `internal::ReduceShape(shape, axis, keepdims=true)`: the shape with every
axis listed in `axis` collapsed to extent 1. -/
def ReduceShape (shape : List ℕ) (axis : List Int) : List ℕ :=
  shape.enum.map (fun p => if (p.1 : Int) ∈ axis then 1 else p.2)

/-- Modelled from the spec: `internal::AsContiguous(a)` (external array
abstraction, `§6`: "contiguous-copy").  Returns the array itself when already
contiguous, otherwise a fresh contiguous copy of its values. -/
def AsContiguous (m : Mem) (a : Arr) : Mem × Arr :=
  if a.isContiguous then (m, a)
  else
    let p := m.alloc (m.read a.sid)
    (p.1, { a with sid := p.2, isContiguous := true })

/-- Modelled from the spec: `internal::AsContiguous(a, dtype)` (external array
abstraction).  Returns the array itself when already contiguous with the
requested dtype, otherwise a fresh contiguous copy converted to `dt` (a plain
copy when the dtype already matches). -/
def AsContiguousCast (m : Mem) (a : Arr) (dt : Dtype) : Mem × Arr :=
  if a.isContiguous ∧ a.dtype = dt then (m, a)
  else
    let data := if a.dtype = dt then m.read a.sid else (m.read a.sid).map (castVal dt)
    let p := m.alloc data
    (p.1, { a with sid := p.2, dtype := dt, isContiguous := true })

/-- Modelled from the spec: `Array::AsType(dt)` (external array abstraction).
Always produces a fresh converted copy. -/
def AsTypeCopy (m : Mem) (a : Arr) (dt : Dtype) : Mem × Arr :=
  let p := m.alloc ((m.read a.sid).map (castVal dt))
  (p.1, { a with sid := p.2, dtype := dt, isContiguous := true })

/-- Modelled from the spec: `EmptyLike(a, device)` (external array
abstraction, `§6`: "empty-tensor allocation").  Fresh uninitialized (zeroed in
the model) contiguous buffer with `a`'s shape and dtype on `device`. -/
def EmptyLike (m : Mem) (a : Arr) (device : ℕ) : Mem × Arr :=
  let p := m.alloc (List.replicate (GetTotalSize a.shape) 0)
  (p.1, { sid := p.2, device := device, dtype := a.dtype, shape := a.shape, isContiguous := true })

/-- Modelled from the spec: `Empty(shape, dtype, device)` (external array
abstraction). -/
def Empty (m : Mem) (shape : List ℕ) (dt : Dtype) (device : ℕ) : Mem × Arr :=
  let p := m.alloc (List.replicate (GetTotalSize shape) 0)
  (p.1, { sid := p.2, device := device, dtype := dt, shape := shape, isContiguous := true })

/-- Modelled from the spec: `Device::MemoryCopyFrom` (external array
abstraction, `§6`: "device-to-device byte copy") restricted to whole-buffer
copies, which is how `UpdateRunning` uses it: the destination buffer receives
the source buffer's content verbatim. -/
def MemoryCopyFrom (m : Mem) (dstSid srcSid : ℕ) : Mem :=
  m.write dstSid (m.read srcSid)

/-- Modelled from the spec: `Device::AsType(from, to)` (external array
abstraction): converts `src`'s values to `dst`'s dtype, writing the result
into `dst`'s storage. -/
def DeviceAsType (m : Mem) (src dst : Arr) : Mem :=
  m.write dst.sid ((m.read src.sid).map (castVal dst.dtype))

/-- The error conditions raised by the three operators, mirroring the source's
`DimensionError` / `CudnnError` / `DeviceError` / `DtypeError` throws and the
fatal `CHAINERX_ASSERT`. -/
inductive ChainerxError where
  | DimensionError (axis : List Int)
  | CudnnError (eps : ℚ)
  | DeviceError
  | DtypeError
  | AssertionFailure
deriving DecidableEq, Repr

/-- The two cuDNN batch normalization modes returned by `GetBatchNormMode`. -/
inductive CudnnBatchNormMode where
  | PER_ACTIVATION
  | SPATIAL
deriving DecidableEq, Repr

/-- `GetBatchNormMode` (batch_norm.cc lines 29-39): maps the reduction axes to
a cuDNN mode.  `axis.ndim() == 1 && axis[0] == 0` gives per-activation;
`[0,2,3]` or `[0,2,3,4]` gives spatial; anything else throws
`DimensionError`. -/
def GetBatchNormMode (axis : List Int) : Except ChainerxError CudnnBatchNormMode :=
  if axis.length = 1 ∧ axis.getD 0 0 = 0 then
    .ok .PER_ACTIVATION
  else if (axis.length = 3 ∧ axis.getD 0 0 = 0 ∧ axis.getD 1 0 = 2 ∧ axis.getD 2 0 = 3) ∨
      (axis.length = 4 ∧ axis.getD 0 0 = 0 ∧ axis.getD 1 0 = 2 ∧ axis.getD 2 0 = 3 ∧
        axis.getD 3 0 = 4) then
    .ok .SPATIAL
  else
    .error (.DimensionError axis)

/-- Modelled from the spec: the engine's minimum epsilon constant
`CUDNN_BN_MIN_EPSILON` (external cuDNN header; spec `§3`: "eps has a hard
lower bound"). -/
def CUDNN_BN_MIN_EPSILON : ℚ := 1 / 100000

/-- Modelled from the spec: the parameter dtype derived by
`cudnnDeriveBNTensorDescriptor` followed by
`CudnnBNTensorDescriptor::GetDtype` (external engine; spec `§4.2` step 3: "the
engine may mandate a specific, possibly higher-precision, dtype for
parameters even when the input is lower precision").  Per the engine's
documented derivation, half-precision inputs derive single-precision
parameters; other float dtypes derive themselves. -/
def cudnnDeriveBNParamDtype : Dtype → Dtype
  | .kFloat16 => .kFloat32
  | dt => dt

/-- The buffers produced by the engine's forward-training primitive: the
normalized output, the updated running statistics, and the saved batch mean
and batch inverse standard deviation. -/
structure ForwardEngineOut where
  out : Storage
  runningMean : Storage
  runningVar : Storage
  saveMean : Storage
  saveInvStd : Storage

/-- The shape of the engine's forward-training primitive as invoked by the
operator: mode, input values, gamma values, beta values, exponential-average
factor, running mean values, running variance values, eps. -/
abbrev ForwardEngine :=
  CudnnBatchNormMode → Storage → Storage → Storage → ℚ → Storage → Storage → ℚ →
    ForwardEngineOut

/-- Arithmetic mean of a buffer. -/
def listMean (l : Storage) : ℚ := l.sum / (l.length : ℚ)

/-- Biased variance of a buffer. -/
def listVariance (l : Storage) : ℚ := listMean (l.map (fun v => (v - listMean l) ^ 2))

/-- Modelled from the spec: `cudnnBatchNormalizationForwardTraining` (external
cuDNN primitive; spec `§4.2` step 6).  It computes batch statistics of the
input, writes the normalized output, updates the running statistics by
`new = old * (1 - factor) + batch * factor` (the engine's documented
exponential-average law), and saves the batch mean and inverse standard
deviation.  Channel-structured pooling and the square root are out of scope
(spec `§1`), so the model pools over the whole input buffer and stores the
reciprocal of `variance + eps` as the inverse-deviation surrogate; no claim
depends on those values. -/
def cudnnBatchNormalizationForwardTraining : ForwardEngine :=
  fun _mode xData gammaData betaData factor rmeanData rvarData eps =>
    let b := listMean xData
    let v := listVariance xData
    let inv := 1 / (v + eps)
    { out := xData.map (fun t => gammaData.headD 1 * ((t - b) * inv) + betaData.headD 0)
      runningMean := rmeanData.map (fun old => old * (1 - factor) + b * factor)
      runningVar := rvarData.map (fun old => old * (1 - factor) + v * factor)
      saveMean := rmeanData.map (fun _ => b)
      saveInvStd := rmeanData.map (fun _ => inv) }

/-- The gradient buffers produced by the engine's backward primitive. -/
structure BackwardEngineOut where
  gx : Storage
  ggamma : Storage
  gbeta : Storage

/-- The shape of the engine's backward primitive as invoked by the operator:
mode, input values, output-gradient values, gamma values, eps, saved mean,
saved inverse standard deviation. -/
abbrev BackwardEngine :=
  CudnnBatchNormMode → Storage → Storage → Storage → ℚ → Storage → Storage →
    BackwardEngineOut

/-- Modelled from the spec: `cudnnBatchNormalizationBackward` (external cuDNN
primitive; spec `§4.3` step 4): produces gradients for input, gamma and beta
from the stored input, the upstream gradient, gamma and the saved statistics.
The gradient formulas are plausible surrogates in exact arithmetic; no claim
depends on their values. -/
def cudnnBatchNormalizationBackward : BackwardEngine :=
  fun _mode xData goutData gammaData _eps saveMeanData saveInvStdData =>
    { gx := goutData.map (fun g => gammaData.headD 1 * saveInvStdData.headD 1 * g)
      ggamma := gammaData.map (fun _ =>
        (List.zipWith (fun g t => g * (t - saveMeanData.headD 0) * saveInvStdData.headD 1)
          goutData xData).sum)
      gbeta := gammaData.map (fun _ => goutData.sum) }

/-- The shape of the engine's inference primitive as invoked by the operator:
mode, input values, gamma, beta, mean, variance, eps; returns the output
buffer. -/
abbrev InferenceEngine :=
  CudnnBatchNormMode → Storage → Storage → Storage → Storage → Storage → ℚ → Storage

/-- Modelled from the spec: `cudnnBatchNormalizationForwardInference`
(external cuDNN primitive; spec `§4.4`): normalizes the input with the fixed
mean and variance.  Reciprocal of `variance + eps` replaces the inverse
standard deviation (exact-arithmetic surrogate); no claim depends on the
values. -/
def cudnnBatchNormalizationForwardInference : InferenceEngine :=
  fun _mode xData gammaData betaData meanData varData eps =>
    xData.map (fun t =>
      gammaData.headD 1 * ((t - meanData.headD 0) / (varData.headD 0 + eps)) + betaData.headD 0)

/-- `CudaBatchNormState` (batch_norm.cc lines 106-113): the forward-training
state handed to the backward pass: the contiguous input copy, the batch mean
and the batch inverse standard deviation. -/
structure CudaBatchNormState where
  x_cont : Arr
  x_mean : Arr
  x_inv_std : Arr
deriving DecidableEq, Repr

/-- `UpdateRunning` (batch_norm.cc lines 42-60): write the engine-updated
running statistic back into the original tensor when a dtype conversion
occurred.  When the dtypes match, the original array aliases the array the
engine updated, so nothing is copied; otherwise the updated values are
converted back to the original dtype (`AsType`) and the bytes are copied into
the original storage (`MemoryCopyFrom`). -/
def UpdateRunning (m : Mem) (running running_updated : Arr) : Mem :=
  if running.dtype = running_updated.dtype then m
  else
    let p := AsTypeCopy m running_updated running.dtype
    MemoryCopyFrom p.1 running.sid p.2.sid

/-- The local arrays prepared by `CudaBatchNormForwardOp::Call` before the
engine invocation, together with the memory after their preparation. -/
structure ForwardLocals where
  mem : Mem
  x_cont : Arr
  gamma_casted_cont : Arr
  beta_casted_cont : Arr
  running_mean_casted : Arr
  running_var_casted : Arr
  x_mean : Arr
  x_inv_std : Arr

/-- Preparation phase of `CudaBatchNormForwardOp::Call` (batch_norm.cc lines
164-185): contiguous input copy, gamma/beta cast to the derived parameter
dtype, running statistics cast only when their dtype differs from the derived
dtype (otherwise the originals are used directly), and fresh batch-mean and
inverse-std buffers shaped like the casted gamma. -/
def forwardLocals (m : Mem) (x gamma beta running_mean running_var : Arr) : ForwardLocals :=
  let p1 := AsContiguous m x
  let dt := cudnnDeriveBNParamDtype x.dtype
  let p2 := AsContiguousCast p1.1 gamma dt
  let p3 := AsContiguousCast p2.1 beta dt
  let p4 := if running_mean.dtype = dt then (p3.1, running_mean)
    else AsTypeCopy p3.1 running_mean dt
  let p5 := if running_var.dtype = dt then (p4.1, running_var)
    else AsTypeCopy p4.1 running_var dt
  let p6 := EmptyLike p5.1 p2.2 x.device
  let p7 := EmptyLike p6.1 p2.2 x.device
  ⟨p7.1, p1.2, p2.2, p3.2, p4.2, p5.2, p6.2, p7.2⟩

/-- The engine invocation of `CudaBatchNormForwardOp::Call` (batch_norm.cc
lines 189-206): the forward-training primitive is called on the prepared
buffers with the exponential-average factor `1 - decay`. -/
def forwardEngineOut (fe : ForwardEngine) (l : ForwardLocals) (mode : CudnnBatchNormMode)
    (eps decay : ℚ) : ForwardEngineOut :=
  fe mode (l.mem.read l.x_cont.sid) (l.mem.read l.gamma_casted_cont.sid)
    (l.mem.read l.beta_casted_cont.sid) (1 - decay) (l.mem.read l.running_mean_casted.sid)
    (l.mem.read l.running_var_casted.sid) eps

/-- The memory state after the engine invocation and write-back phase of
`CudaBatchNormForwardOp::Call` (batch_norm.cc lines 189-213): the engine
writes the normalized output, the updated running statistics (into the casted
buffers, which alias the originals when no cast occurred) and the saved batch
statistics; then `UpdateRunning` copies each casted running statistic back
into its original tensor when a cast occurred. -/
def forwardFinalMem (fe : ForwardEngine) (m : Mem)
    (x gamma beta running_mean running_var : Arr) (eps decay : ℚ)
    (mode : CudnnBatchNormMode) (out : Arr) : Mem :=
  let l := forwardLocals m x gamma beta running_mean running_var
  let r := forwardEngineOut fe l mode eps decay
  let m1 := l.mem.write out.sid r.out
  let m2 := m1.write l.running_mean_casted.sid r.runningMean
  let m3 := m2.write l.running_var_casted.sid r.runningVar
  let m4 := m3.write l.x_mean.sid r.saveMean
  let m5 := m4.write l.x_inv_std.sid r.saveInvStd
  let m6 := UpdateRunning m5 running_mean l.running_mean_casted
  UpdateRunning m6 running_var l.running_var_casted

/-- `CudaBatchNormForwardOp::Call` (batch_norm.cc lines 119-218).  Validates
eps against the engine minimum and the contiguity of the running statistics,
resolves the mode, prepares casted contiguous buffers, invokes the
forward-training engine (which writes the output, the updated running
statistics in the engine dtype, and the saved batch statistics), writes the
running statistics back into the original tensors when they were casted, and
retains the state when requested. -/
def CudaBatchNormForwardOp.Call (fe : ForwardEngine) (m : Mem)
    (x gamma beta running_mean running_var : Arr) (eps decay : ℚ) (axis : List Int)
    (out : Arr) (retainState : Bool) :
    Except ChainerxError (Mem × Option CudaBatchNormState) :=
  if eps < CUDNN_BN_MIN_EPSILON then .error (.CudnnError eps)
  else if !running_mean.isContiguous then .error .DeviceError
  else if !running_var.isContiguous then .error .DeviceError
  else
    match GetBatchNormMode axis with
    | .error e => .error e
    | .ok mode =>
      let l := forwardLocals m x gamma beta running_mean running_var
      .ok (forwardFinalMem fe m x gamma beta running_mean running_var eps decay mode out,
        if retainState then some ⟨l.x_cont, l.x_mean, l.x_inv_std⟩ else none)

/-- The local arrays prepared by `CudaBatchNormBackwardOp::Call` before the
engine invocation, together with the memory after their preparation. -/
structure BackwardLocals where
  mem : Mem
  gout_cont : Arr
  gx_cont : Arr
  gamma_casted_cont : Arr
  ggamma_casted_cont : Arr
  gbeta_casted_cont : Arr

/-- Preparation phase of `CudaBatchNormBackwardOp::Call` (batch_norm.cc lines
265-277): contiguous upstream gradient, fresh input-gradient buffer shaped
like the stored input, gamma cast to the derived parameter dtype, and fresh
gamma/beta gradient buffers of the reduced shape in that dtype. -/
def backwardLocals (m : Mem) (x_cont gamma gout : Arr) (axis : List Int) : BackwardLocals :=
  let dt := cudnnDeriveBNParamDtype x_cont.dtype
  let reduced := ReduceShape x_cont.shape axis
  let p1 := AsContiguous m gout
  let p2 := EmptyLike p1.1 x_cont x_cont.device
  let p3 := AsContiguousCast p2.1 gamma dt
  let p4 := Empty p3.1 reduced dt x_cont.device
  let p5 := Empty p4.1 reduced dt x_cont.device
  ⟨p5.1, p1.2, p2.2, p3.2, p4.2, p5.2⟩

/-- The engine invocation of `CudaBatchNormBackwardOp::Call` (batch_norm.cc
lines 286-305): the backward primitive reads the stored contiguous input, the
contiguous upstream gradient, the casted gamma and the saved batch
statistics. -/
def backwardEngineOut (be : BackwardEngine) (l : BackwardLocals) (st : CudaBatchNormState)
    (mode : CudnnBatchNormMode) (eps : ℚ) : BackwardEngineOut :=
  be mode (l.mem.read st.x_cont.sid) (l.mem.read l.gout_cont.sid)
    (l.mem.read l.gamma_casted_cont.sid) eps (l.mem.read st.x_mean.sid)
    (l.mem.read st.x_inv_std.sid)

/-- The memory state after the engine invocation and cast-back phase of
`CudaBatchNormBackwardOp::Call` (batch_norm.cc lines 286-310): the engine
writes the three gradients into the working-dtype buffers, then
`device.AsType` unconditionally converts each of them into the caller's
`gx`, `ggamma` and `gbeta` tensors. -/
def backwardFinalMem (be : BackwardEngine) (m : Mem) (gamma gout : Arr) (eps : ℚ)
    (axis : List Int) (gx ggamma gbeta : Arr) (st : CudaBatchNormState)
    (mode : CudnnBatchNormMode) : Mem :=
  let l := backwardLocals m st.x_cont gamma gout axis
  let r := backwardEngineOut be l st mode eps
  let m1 := l.mem.write l.gx_cont.sid r.gx
  let m2 := m1.write l.ggamma_casted_cont.sid r.ggamma
  let m3 := m2.write l.gbeta_casted_cont.sid r.gbeta
  let m4 := DeviceAsType m3 l.gx_cont gx
  let m5 := DeviceAsType m4 l.ggamma_casted_cont ggamma
  DeviceAsType m5 l.gbeta_casted_cont gbeta

/-- `CudaBatchNormBackwardOp::Call` (batch_norm.cc lines 225-311).  Asserts
that the state is present (fatal otherwise), validates eps, resolves the
mode, prepares buffers, invokes the backward engine into the working-dtype
buffers, and unconditionally converts the three gradient buffers into the
caller's `gx`, `ggamma` and `gbeta` tensors.  The `x` parameter is unused
(the source comments out its name); the input is read from the state. -/
def CudaBatchNormBackwardOp.Call (be : BackwardEngine) (m : Mem)
    (x gamma gout : Arr) (eps : ℚ) (axis : List Int) (gx ggamma gbeta : Arr)
    (state : Option CudaBatchNormState) : Except ChainerxError Mem :=
  match state with
  | none => .error .AssertionFailure
  | some st =>
    if eps < CUDNN_BN_MIN_EPSILON then .error (.CudnnError eps)
    else
      match GetBatchNormMode axis with
      | .error e => .error e
      | .ok mode => .ok (backwardFinalMem be m gamma gout eps axis gx ggamma gbeta st mode)

/-- The local arrays prepared by `CudaFixedBatchNormForwardOp::Call` before
the engine invocation, together with the memory after their preparation. -/
structure FixedLocals where
  mem : Mem
  x_cont : Arr
  gamma_casted_cont : Arr
  beta_casted_cont : Arr
  mean_casted_cont : Arr
  var_casted_cont : Arr

/-- Preparation phase of `CudaFixedBatchNormForwardOp::Call` (batch_norm.cc
lines 353-364): contiguous input and casted contiguous copies of gamma, beta,
mean and variance in the derived parameter dtype. -/
def fixedLocals (m : Mem) (x gamma beta mean var : Arr) : FixedLocals :=
  let p1 := AsContiguous m x
  let dt := cudnnDeriveBNParamDtype x.dtype
  let p2 := AsContiguousCast p1.1 gamma dt
  let p3 := AsContiguousCast p2.1 beta dt
  let p4 := AsContiguousCast p3.1 mean dt
  let p5 := AsContiguousCast p4.1 var dt
  ⟨p5.1, p1.2, p2.2, p3.2, p4.2, p5.2⟩

/-- The engine invocation of `CudaFixedBatchNormForwardOp::Call`
(batch_norm.cc lines 368-382). -/
def fixedEngineOut (ie : InferenceEngine) (l : FixedLocals) (mode : CudnnBatchNormMode)
    (eps : ℚ) : Storage :=
  ie mode (l.mem.read l.x_cont.sid) (l.mem.read l.gamma_casted_cont.sid)
    (l.mem.read l.beta_casted_cont.sid) (l.mem.read l.mean_casted_cont.sid)
    (l.mem.read l.var_casted_cont.sid) eps

/-- `CudaFixedBatchNormForwardOp::Call` (batch_norm.cc lines 318-383).
Validates eps, resolves the mode, prepares casted contiguous copies of the
parameters, and invokes the inference engine, whose result is written into
`out`.  No state is consumed or produced and the running statistics are read
only through their casted copies. -/
def CudaFixedBatchNormForwardOp.Call (ie : InferenceEngine) (m : Mem)
    (x gamma beta mean var : Arr) (eps : ℚ) (axis : List Int) (out : Arr) :
    Except ChainerxError Mem :=
  if eps < CUDNN_BN_MIN_EPSILON then .error (.CudnnError eps)
  else
    match GetBatchNormMode axis with
    | .error e => .error e
    | .ok mode =>
      let l := fixedLocals m x gamma beta mean var
      .ok (l.mem.write out.sid (fixedEngineOut ie l mode eps))

/-- Decide whether an `Except` result is a success. -/
def exceptOk {ε α : Type} : Except ε α → Bool
  | .ok _ => true
  | .error _ => false

/-- Concrete device memory used to evaluate the operators on closed inputs:
six singleton buffers. -/
def wMem : Mem := [[1], [1], [0], [2], [3], [0]]

/-- Concrete half-precision input tensor view on buffer 0. -/
def wX16 : Arr := ⟨0, 0, .kFloat16, [1], true⟩

/-- Concrete single-precision input tensor view on buffer 0. -/
def wX32 : Arr := ⟨0, 0, .kFloat32, [1], true⟩

/-- Concrete gamma tensor view on buffer 1. -/
def wGamma : Arr := ⟨1, 0, .kFloat32, [1], true⟩

/-- Concrete beta tensor view on buffer 2. -/
def wBeta : Arr := ⟨2, 0, .kFloat32, [1], true⟩

/-- Concrete half-precision running-mean view on buffer 3. -/
def wRM16 : Arr := ⟨3, 0, .kFloat16, [1], true⟩

/-- Concrete single-precision running-variance view on buffer 4. -/
def wRV32 : Arr := ⟨4, 0, .kFloat32, [1], true⟩

/-- Concrete output tensor view on buffer 5. -/
def wOut : Arr := ⟨5, 0, .kFloat16, [1], true⟩

/-- The forward-training call evaluated on the concrete fixtures, with the
model engine, a half-precision input (so the derived parameter dtype is
single precision), a half-precision running mean (casted) and a
single-precision running variance (not casted). -/
def wForwardRes : Except ChainerxError (Mem × Option CudaBatchNormState) :=
  CudaBatchNormForwardOp.Call cudnnBatchNormalizationForwardTraining wMem wX16 wGamma wBeta
    wRM16 wRV32 1 (1 / 2) [0] wOut true

/-- Concrete non-contiguous running-mean view on buffer 3. -/
def wRMnc : Arr := ⟨3, 0, .kFloat32, [1], false⟩

/-- Concrete non-contiguous running-variance view on buffer 4. -/
def wRVnc : Arr := ⟨4, 0, .kFloat32, [1], false⟩

/-- Concrete gradient output buffers for the backward operator. -/
def wGX : Arr := ⟨3, 0, .kFloat32, [1], true⟩

/-- Concrete gamma-gradient buffer for the backward operator. -/
def wGG : Arr := ⟨4, 0, .kFloat32, [1], true⟩

/-- Concrete beta-gradient buffer for the backward operator. -/
def wGB : Arr := ⟨5, 0, .kFloat16, [1], true⟩

/-- Concrete forward-produced state for backward-operator evaluations: the
contiguous input on buffer 0, the batch mean on buffer 1 and the inverse
standard deviation on buffer 2. -/
def wState : CudaBatchNormState := ⟨wX32, wGamma, wBeta⟩

/-- The backward call evaluated on the concrete fixtures with the model
engine. -/
def wBackwardRes : Except ChainerxError Mem :=
  CudaBatchNormBackwardOp.Call cudnnBatchNormalizationBackward wMem wX32 wGamma wBeta 1 [0]
    wGX wGG wGB (some wState)

/-- The state retained by the concrete forward call `wForwardRes`. -/
def wForwardState : CudaBatchNormState :=
  (match wForwardRes with
    | .ok (_, some st) => some st
    | _ => none).getD ⟨wX16, wX16, wX16⟩

/-- `m'` extends `m`: it was obtained from `m` by allocations only. -/
def MemExt (m m' : Mem) : Prop := ∃ t, m' = m ++ t

/-- The facts about the forward preparation phase that the claims rely on:
where each prepared array lives, its metadata, and the content of the casted
running-statistic buffers. -/
structure ForwardLocalsFacts (m : Mem) (x rm rv : Arr) (l : ForwardLocals) : Prop where
  ext : MemExt m l.mem
  xcont_device : l.x_cont.device = x.device
  xcont_dtype : l.x_cont.dtype = x.dtype
  xcont_contig : l.x_cont.isContiguous = true
  xmean_sid_ge : m.length ≤ l.x_mean.sid
  xinv_sid : l.x_inv_std.sid = l.x_mean.sid + 1
  len_eq : l.mem.length = l.x_mean.sid + 2
  xmean_device : l.x_mean.device = x.device
  xmean_dtype : l.x_mean.dtype = cudnnDeriveBNParamDtype x.dtype
  xmean_contig : l.x_mean.isContiguous = true
  xinv_device : l.x_inv_std.device = x.device
  xinv_dtype : l.x_inv_std.dtype = cudnnDeriveBNParamDtype x.dtype
  xinv_contig : l.x_inv_std.isContiguous = true
  rmean_same : rm.dtype = cudnnDeriveBNParamDtype x.dtype → l.running_mean_casted = rm
  rvar_same : rv.dtype = cudnnDeriveBNParamDtype x.dtype → l.running_var_casted = rv
  rmean_cast : rm.dtype ≠ cudnnDeriveBNParamDtype x.dtype →
    l.running_mean_casted.dtype = cudnnDeriveBNParamDtype x.dtype ∧
      m.length ≤ l.running_mean_casted.sid ∧
      l.mem.read l.running_mean_casted.sid =
        (m.read rm.sid).map (castVal (cudnnDeriveBNParamDtype x.dtype))
  rvar_cast : rv.dtype ≠ cudnnDeriveBNParamDtype x.dtype →
    l.running_var_casted.dtype = cudnnDeriveBNParamDtype x.dtype ∧
      m.length ≤ l.running_var_casted.sid ∧
      l.mem.read l.running_var_casted.sid =
        (m.read rv.sid).map (castVal (cudnnDeriveBNParamDtype x.dtype))
  rmean_lt_xmean : l.running_mean_casted.sid < l.x_mean.sid
  rvar_lt_xmean : l.running_var_casted.sid < l.x_mean.sid
  rmean_ne_rvar : l.running_mean_casted.sid ≠ l.running_var_casted.sid

/-- The facts about the backward preparation phase that the claims rely on:
the freshly allocated gradient buffers are distinct, live above the caller's
memory, and the prepared memory extends the input memory. -/
structure BackwardLocalsFacts (m : Mem) (l : BackwardLocals) : Prop where
  ext : MemExt m l.mem
  gxc_ge : m.length ≤ l.gx_cont.sid
  gxc_lt_gg : l.gx_cont.sid < l.ggamma_casted_cont.sid
  gb_succ : l.gbeta_casted_cont.sid = l.ggamma_casted_cont.sid + 1
  len_eq : l.mem.length = l.gbeta_casted_cont.sid + 1


/-- The state retained by a forward-training call, if any. -/
def forwardStateOf (r : Except ChainerxError (Mem × Option CudaBatchNormState)) :
    Option CudaBatchNormState :=
  match r with
  | .ok p => p.2
  | .error _ => none

/-- The memory resulting from a forward-training call (unchanged input memory
on error, which has no observable device effect in the model). -/
def forwardMemOf (m : Mem) (r : Except ChainerxError (Mem × Option CudaBatchNormState)) :
    Mem :=
  match r with
  | .ok p => p.1
  | .error _ => m

/-- The memory resulting from a backward call (unchanged input memory on
error). -/
def backwardMemOf (m : Mem) (r : Except ChainerxError Mem) : Mem :=
  match r with
  | .ok mf => mf
  | .error _ => m

/-- The dtypes of the three fields of a retained forward state, when one was
produced. -/
def stateFieldDtypes (r : Except ChainerxError (Mem × Option CudaBatchNormState)) :
    Option (Dtype × Dtype × Dtype) :=
  (forwardStateOf r).map (fun st => (st.x_cont.dtype, st.x_mean.dtype, st.x_inv_std.dtype))


lemma axis_cond1_iff (axis : List Int) :
    (axis.length = 1 ∧ axis.getD 0 0 = 0) ↔ axis = [0] := by
  constructor
  · rintro ⟨h1, h2⟩
    match axis, h1 with
    | [a], _ => simpa using h2
  · rintro rfl; simp

lemma axis_cond3_iff (axis : List Int) :
    (axis.length = 3 ∧ axis.getD 0 0 = 0 ∧ axis.getD 1 0 = 2 ∧ axis.getD 2 0 = 3) ↔
      axis = [0, 2, 3] := by
  constructor
  · rintro ⟨h1, h2, h3, h4⟩
    match axis, h1 with
    | [a, b, c], _ =>
      simp only [List.getD] at h2 h3 h4
      simp_all
  · rintro rfl; simp

lemma axis_cond4_iff (axis : List Int) :
    (axis.length = 4 ∧ axis.getD 0 0 = 0 ∧ axis.getD 1 0 = 2 ∧ axis.getD 2 0 = 3 ∧
        axis.getD 3 0 = 4) ↔ axis = [0, 2, 3, 4] := by
  constructor
  · rintro ⟨h1, h2, h3, h4, h5⟩
    match axis, h1 with
    | [a, b, c, d], _ =>
      simp only [List.getD] at h2 h3 h4 h5
      simp_all
  · rintro rfl; simp

/-- Claim C5: `GetBatchNormMode` is a pure function of the axis spec: it
returns `PER_ACTIVATION` exactly when the axis list is `[0]`, `SPATIAL`
exactly when the axis list is `[0,2,3]` or `[0,2,3,4]`, and for any other
axis list it fails with a `DimensionError` naming the offending axis list. -/
theorem getBatchNormMode_characterization (axis : List Int) :
    (GetBatchNormMode axis = .ok .PER_ACTIVATION ↔ axis = [0]) ∧
    (GetBatchNormMode axis = .ok .SPATIAL ↔ (axis = [0, 2, 3] ∨ axis = [0, 2, 3, 4])) ∧
    (axis ≠ [0] → axis ≠ [0, 2, 3] → axis ≠ [0, 2, 3, 4] →
      GetBatchNormMode axis = .error (.DimensionError axis)) := by
  by_cases h0 : axis = [0]
  · subst h0; decide
  by_cases h3 : axis = [0, 2, 3]
  · subst h3; decide
  by_cases h4 : axis = [0, 2, 3, 4]
  · subst h4; decide
  have c1 : ¬(axis.length = 1 ∧ axis.getD 0 0 = 0) := fun hc => h0 ((axis_cond1_iff axis).1 hc)
  have c34 : ¬((axis.length = 3 ∧ axis.getD 0 0 = 0 ∧ axis.getD 1 0 = 2 ∧ axis.getD 2 0 = 3) ∨
      (axis.length = 4 ∧ axis.getD 0 0 = 0 ∧ axis.getD 1 0 = 2 ∧ axis.getD 2 0 = 3 ∧
        axis.getD 3 0 = 4)) := by
    rintro (hc | hc)
    · exact h3 ((axis_cond3_iff axis).1 hc)
    · exact h4 ((axis_cond4_iff axis).1 hc)
  have hval : GetBatchNormMode axis = .error (.DimensionError axis) := by
    unfold GetBatchNormMode
    rw [if_neg c1, if_neg c34]
  refine ⟨?_, ?_, fun _ _ _ => hval⟩
  · rw [hval]; simp [h0]
  · rw [hval]; simp [h3, h4]

/-- Witness for C5: the offending axis list `[1]` is rejected with a
`DimensionError` naming it. -/
theorem getBatchNormMode_characterization_witness :
    GetBatchNormMode [1] = .error (.DimensionError [1]) :=
  (getBatchNormMode_characterization [1]).2.2 (by decide) (by decide) (by decide)

lemma Mem.length_write (m : Mem) (i : ℕ) (d : Storage) : (m.write i d).length = m.length :=
  List.length_set m i d

lemma Mem.read_write_self (m : Mem) (i : ℕ) (d : Storage) (h : i < m.length) :
    (m.write i d).read i = d := by
  induction m generalizing i with
  | nil => simp at h
  | cons a t ih =>
    cases i with
    | zero => rfl
    | succ n => exact ih n (by simpa using h)

lemma Mem.read_write_ne (m : Mem) (i j : ℕ) (d : Storage) (h : i ≠ j) :
    (m.write i d).read j = m.read j := by
  induction m generalizing i j with
  | nil => rfl
  | cons a t ih =>
    cases i with
    | zero =>
      cases j with
      | zero => exact absurd rfl h
      | succ n => rfl
    | succ n =>
      cases j with
      | zero => rfl
      | succ k => exact ih n k (fun hnk => h (by rw [hnk]))

lemma Mem.read_append_lt (m t : Mem) (j : ℕ) (h : j < m.length) :
    (m ++ t).read j = m.read j := by
  unfold Mem.read
  unfold List.getD
  rw [List.get?_append h]

lemma Mem.read_append_self (m : Mem) (d : Storage) : (m ++ [d]).read m.length = d := by
  unfold Mem.read
  unfold List.getD
  rw [List.get?_append_right (Nat.le_refl _)]
  simp

lemma MemExt.refl (m : Mem) : MemExt m m := ⟨[], by simp⟩

lemma MemExt.trans {m1 m2 m3 : Mem} (h1 : MemExt m1 m2) (h2 : MemExt m2 m3) :
    MemExt m1 m3 := by
  obtain ⟨t1, rfl⟩ := h1
  obtain ⟨t2, rfl⟩ := h2
  exact ⟨t1 ++ t2, by simp⟩

lemma MemExt.len {m m' : Mem} (h : MemExt m m') : m.length ≤ m'.length := by
  obtain ⟨t, rfl⟩ := h
  simp

lemma MemExt.read {m m' : Mem} (h : MemExt m m') (j : ℕ) (hj : j < m.length) :
    m'.read j = m.read j := by
  obtain ⟨t, rfl⟩ := h
  exact Mem.read_append_lt m t j hj

lemma MemExt.alloc (m : Mem) (d : Storage) : MemExt m (m.alloc d).1 := ⟨[d], rfl⟩

lemma AsContiguous_spec (m : Mem) (a : Arr) (ha : a.sid < m.length) :
    MemExt m (AsContiguous m a).1 ∧
    (AsContiguous m a).2.sid < (AsContiguous m a).1.length ∧
    (AsContiguous m a).2.device = a.device ∧
    (AsContiguous m a).2.dtype = a.dtype ∧
    (AsContiguous m a).2.shape = a.shape ∧
    (AsContiguous m a).2.isContiguous = true ∧
    (AsContiguous m a).1.read (AsContiguous m a).2.sid = m.read a.sid ∧
    m.length ≤ (AsContiguous m a).1.length := by
  unfold AsContiguous
  by_cases hc : a.isContiguous
  · simp [hc, MemExt.refl, ha]
  · simp only [hc, if_false, Mem.alloc]
    refine ⟨⟨[m.read a.sid], rfl⟩, by simp, rfl, rfl, rfl,
      rfl, Mem.read_append_self m _, by simp⟩

lemma AsContiguousCast_spec (m : Mem) (a : Arr) (dt : Dtype) (ha : a.sid < m.length) :
    MemExt m (AsContiguousCast m a dt).1 ∧
    (AsContiguousCast m a dt).2.sid < (AsContiguousCast m a dt).1.length ∧
    (AsContiguousCast m a dt).2.device = a.device ∧
    (AsContiguousCast m a dt).2.dtype = dt ∧
    (AsContiguousCast m a dt).2.shape = a.shape ∧
    (AsContiguousCast m a dt).2.isContiguous = true ∧
    m.length ≤ (AsContiguousCast m a dt).1.length := by
  unfold AsContiguousCast
  by_cases hc : a.isContiguous ∧ a.dtype = dt
  · simp [hc, MemExt.refl, ha, hc.1, hc.2]
  · rw [if_neg hc]
    refine ⟨⟨[_], rfl⟩, ?_⟩
    simp [Mem.alloc]

lemma AsTypeCopy_spec (m : Mem) (a : Arr) (dt : Dtype) :
    (AsTypeCopy m a dt).1 = m ++ [(m.read a.sid).map (castVal dt)] ∧
    (AsTypeCopy m a dt).2.sid = m.length ∧
    (AsTypeCopy m a dt).1.length = m.length + 1 ∧
    (AsTypeCopy m a dt).2.device = a.device ∧
    (AsTypeCopy m a dt).2.dtype = dt ∧
    (AsTypeCopy m a dt).2.shape = a.shape ∧
    (AsTypeCopy m a dt).2.isContiguous = true ∧
    (AsTypeCopy m a dt).1.read (AsTypeCopy m a dt).2.sid = (m.read a.sid).map (castVal dt) := by
  unfold AsTypeCopy Mem.alloc
  refine ⟨rfl, rfl, by simp, rfl, rfl, rfl, rfl,
    Mem.read_append_self m _⟩

lemma EmptyLike_spec (m : Mem) (a : Arr) (dev : ℕ) :
    (EmptyLike m a dev).1 = m ++ [List.replicate (GetTotalSize a.shape) 0] ∧
    (EmptyLike m a dev).2.sid = m.length ∧
    (EmptyLike m a dev).1.length = m.length + 1 ∧
    (EmptyLike m a dev).2.device = dev ∧
    (EmptyLike m a dev).2.dtype = a.dtype ∧
    (EmptyLike m a dev).2.shape = a.shape ∧
    (EmptyLike m a dev).2.isContiguous = true := by
  unfold EmptyLike Mem.alloc
  exact ⟨rfl, rfl, by simp, rfl, rfl, rfl, rfl⟩

lemma Empty_spec (m : Mem) (shape : List ℕ) (dt : Dtype) (dev : ℕ) :
    (Empty m shape dt dev).1 = m ++ [List.replicate (GetTotalSize shape) 0] ∧
    (Empty m shape dt dev).2.sid = m.length ∧
    (Empty m shape dt dev).1.length = m.length + 1 ∧
    (Empty m shape dt dev).2.device = dev ∧
    (Empty m shape dt dev).2.dtype = dt ∧
    (Empty m shape dt dev).2.shape = shape ∧
    (Empty m shape dt dev).2.isContiguous = true := by
  unfold Empty Mem.alloc
  exact ⟨rfl, rfl, by simp, rfl, rfl, rfl, rfl⟩

lemma UpdateRunning_same (m : Mem) (r ru : Arr) (h : r.dtype = ru.dtype) :
    UpdateRunning m r ru = m := by
  simp [UpdateRunning, h]

lemma UpdateRunning_cast (m : Mem) (r ru : Arr) (h : r.dtype ≠ ru.dtype) :
    UpdateRunning m r ru =
      (m ++ [(m.read ru.sid).map (castVal r.dtype)]).write r.sid
        ((m.read ru.sid).map (castVal r.dtype)) := by
  unfold UpdateRunning MemoryCopyFrom AsTypeCopy Mem.alloc
  rw [if_neg h]
  simp only
  rw [Mem.read_append_self m _]

lemma forwardLocals_facts (m : Mem) (x gamma beta rm rv : Arr)
    (hx : x.sid < m.length) (hg : gamma.sid < m.length) (hbt : beta.sid < m.length)
    (hm : rm.sid < m.length) (hv : rv.sid < m.length) (hne : rm.sid ≠ rv.sid) :
    ForwardLocalsFacts m x rm rv (forwardLocals m x gamma beta rm rv) := by
  dsimp only [forwardLocals]
  have S1 := AsContiguous_spec m x hx
  generalize hq1 : AsContiguous m x = q1
  rw [hq1] at S1
  obtain ⟨e1, s1, dev1, dt1, sh1, c1, r1, len1⟩ := S1
  have hg1 : gamma.sid < q1.1.length := lt_of_lt_of_le hg e1.len
  have S2 := AsContiguousCast_spec q1.1 gamma (cudnnDeriveBNParamDtype x.dtype) hg1
  generalize hq2 : AsContiguousCast q1.1 gamma (cudnnDeriveBNParamDtype x.dtype) = q2
  rw [hq2] at S2
  obtain ⟨e2, s2, dev2, dt2, sh2, c2, len2⟩ := S2
  have hb2 : beta.sid < q2.1.length := lt_of_lt_of_le hbt (e1.trans e2).len
  have S3 := AsContiguousCast_spec q2.1 beta (cudnnDeriveBNParamDtype x.dtype) hb2
  generalize hq3 : AsContiguousCast q2.1 beta (cudnnDeriveBNParamDtype x.dtype) = q3
  rw [hq3] at S3
  obtain ⟨e3, s3, dev3, dt3, sh3, c3, len3⟩ := S3
  have e13 : MemExt m q3.1 := e1.trans (e2.trans e3)
  have l13 : m.length ≤ q3.1.length := e13.len
  split_ifs with hrv hrm hrm
  · try dsimp only
    have S6 := EmptyLike_spec q3.1 q2.2 x.device
    generalize hq6 : EmptyLike q3.1 q2.2 x.device = q6
    rw [hq6] at S6
    obtain ⟨meq6, sid6, len6, dev6, dt6, sh6, c6⟩ := S6
    have S7 := EmptyLike_spec q6.1 q2.2 x.device
    generalize hq7 : EmptyLike q6.1 q2.2 x.device = q7
    rw [hq7] at S7
    obtain ⟨meq7, sid7, len7, dev7, dt7, sh7, c7⟩ := S7
    have ext67 : MemExt q3.1 q7.1 := MemExt.trans ⟨_, meq6⟩ ⟨_, meq7⟩
    exact {
      ext := e13.trans ext67
      xcont_device := dev1
      xcont_dtype := dt1
      xcont_contig := c1
      xmean_sid_ge := by (try dsimp only); omega
      xinv_sid := by (try dsimp only); omega
      len_eq := by (try dsimp only); omega
      xmean_device := dev6
      xmean_dtype := dt6.trans dt2
      xmean_contig := c6
      xinv_device := dev7
      xinv_dtype := dt7.trans dt2
      xinv_contig := c7
      rmean_same := fun _ => rfl
      rvar_same := fun _ => rfl
      rmean_cast := fun h => absurd hrm h
      rvar_cast := fun h => absurd hrv h
      rmean_lt_xmean := by (try dsimp only); omega
      rvar_lt_xmean := by (try dsimp only); omega
      rmean_ne_rvar := hne }
  · try dsimp only
    have S4 := AsTypeCopy_spec q3.1 rm (cudnnDeriveBNParamDtype x.dtype)
    generalize hq4 : AsTypeCopy q3.1 rm (cudnnDeriveBNParamDtype x.dtype) = q4
    rw [hq4] at S4
    obtain ⟨meq4, sid4, len4, dev4, dt4, sh4, c4, r4⟩ := S4
    have S6 := EmptyLike_spec q4.1 q2.2 x.device
    generalize hq6 : EmptyLike q4.1 q2.2 x.device = q6
    rw [hq6] at S6
    obtain ⟨meq6, sid6, len6, dev6, dt6, sh6, c6⟩ := S6
    have S7 := EmptyLike_spec q6.1 q2.2 x.device
    generalize hq7 : EmptyLike q6.1 q2.2 x.device = q7
    rw [hq7] at S7
    obtain ⟨meq7, sid7, len7, dev7, dt7, sh7, c7⟩ := S7
    have ext67 : MemExt q4.1 q7.1 := MemExt.trans ⟨_, meq6⟩ ⟨_, meq7⟩
    have hread : q7.1.read q4.2.sid =
        (m.read rm.sid).map (castVal (cudnnDeriveBNParamDtype x.dtype)) := by
      rw [ext67.read q4.2.sid (by (try dsimp only); omega), r4, e13.read rm.sid hm]
    exact {
      ext := e13.trans (MemExt.trans ⟨_, meq4⟩ ext67)
      xcont_device := dev1
      xcont_dtype := dt1
      xcont_contig := c1
      xmean_sid_ge := by (try dsimp only); omega
      xinv_sid := by (try dsimp only); omega
      len_eq := by (try dsimp only); omega
      xmean_device := dev6
      xmean_dtype := dt6.trans dt2
      xmean_contig := c6
      xinv_device := dev7
      xinv_dtype := dt7.trans dt2
      xinv_contig := c7
      rmean_same := fun h => absurd h hrm
      rvar_same := fun _ => rfl
      rmean_cast := fun _ => ⟨dt4, by (try dsimp only); omega, hread⟩
      rvar_cast := fun h => absurd hrv h
      rmean_lt_xmean := by (try dsimp only); omega
      rvar_lt_xmean := by (try dsimp only); omega
      rmean_ne_rvar := by (try dsimp only); omega }
  · try dsimp only
    have S5 := AsTypeCopy_spec q3.1 rv (cudnnDeriveBNParamDtype x.dtype)
    generalize hq5 : AsTypeCopy q3.1 rv (cudnnDeriveBNParamDtype x.dtype) = q5
    rw [hq5] at S5
    obtain ⟨meq5, sid5, len5, dev5, dt5, sh5, c5, r5⟩ := S5
    have S6 := EmptyLike_spec q5.1 q2.2 x.device
    generalize hq6 : EmptyLike q5.1 q2.2 x.device = q6
    rw [hq6] at S6
    obtain ⟨meq6, sid6, len6, dev6, dt6, sh6, c6⟩ := S6
    have S7 := EmptyLike_spec q6.1 q2.2 x.device
    generalize hq7 : EmptyLike q6.1 q2.2 x.device = q7
    rw [hq7] at S7
    obtain ⟨meq7, sid7, len7, dev7, dt7, sh7, c7⟩ := S7
    have ext67 : MemExt q5.1 q7.1 := MemExt.trans ⟨_, meq6⟩ ⟨_, meq7⟩
    have hread : q7.1.read q5.2.sid =
        (m.read rv.sid).map (castVal (cudnnDeriveBNParamDtype x.dtype)) := by
      rw [ext67.read q5.2.sid (by (try dsimp only); omega), r5, e13.read rv.sid hv]
    exact {
      ext := e13.trans (MemExt.trans ⟨_, meq5⟩ ext67)
      xcont_device := dev1
      xcont_dtype := dt1
      xcont_contig := c1
      xmean_sid_ge := by (try dsimp only); omega
      xinv_sid := by (try dsimp only); omega
      len_eq := by (try dsimp only); omega
      xmean_device := dev6
      xmean_dtype := dt6.trans dt2
      xmean_contig := c6
      xinv_device := dev7
      xinv_dtype := dt7.trans dt2
      xinv_contig := c7
      rmean_same := fun _ => rfl
      rvar_same := fun h => absurd h hrv
      rmean_cast := fun h => absurd hrm h
      rvar_cast := fun _ => ⟨dt5, by (try dsimp only); omega, hread⟩
      rmean_lt_xmean := by (try dsimp only); omega
      rvar_lt_xmean := by (try dsimp only); omega
      rmean_ne_rvar := by (try dsimp only); omega }
  · try dsimp only
    have S4 := AsTypeCopy_spec q3.1 rm (cudnnDeriveBNParamDtype x.dtype)
    generalize hq4 : AsTypeCopy q3.1 rm (cudnnDeriveBNParamDtype x.dtype) = q4
    rw [hq4] at S4
    obtain ⟨meq4, sid4, len4, dev4, dt4, sh4, c4, r4⟩ := S4
    have S5 := AsTypeCopy_spec q4.1 rv (cudnnDeriveBNParamDtype x.dtype)
    generalize hq5 : AsTypeCopy q4.1 rv (cudnnDeriveBNParamDtype x.dtype) = q5
    rw [hq5] at S5
    obtain ⟨meq5, sid5, len5, dev5, dt5, sh5, c5, r5⟩ := S5
    have S6 := EmptyLike_spec q5.1 q2.2 x.device
    generalize hq6 : EmptyLike q5.1 q2.2 x.device = q6
    rw [hq6] at S6
    obtain ⟨meq6, sid6, len6, dev6, dt6, sh6, c6⟩ := S6
    have S7 := EmptyLike_spec q6.1 q2.2 x.device
    generalize hq7 : EmptyLike q6.1 q2.2 x.device = q7
    rw [hq7] at S7
    obtain ⟨meq7, sid7, len7, dev7, dt7, sh7, c7⟩ := S7
    have ext67 : MemExt q5.1 q7.1 := MemExt.trans ⟨_, meq6⟩ ⟨_, meq7⟩
    have ext47 : MemExt q4.1 q7.1 := MemExt.trans ⟨_, meq5⟩ ext67
    have hreadm : q7.1.read q4.2.sid =
        (m.read rm.sid).map (castVal (cudnnDeriveBNParamDtype x.dtype)) := by
      rw [ext47.read q4.2.sid (by (try dsimp only); omega), r4, e13.read rm.sid hm]
    have hreadv : q7.1.read q5.2.sid =
        (m.read rv.sid).map (castVal (cudnnDeriveBNParamDtype x.dtype)) := by
      have h4v : q4.1.read rv.sid = m.read rv.sid :=
        (MemExt.trans e13 ⟨_, meq4⟩).read rv.sid hv
      rw [ext67.read q5.2.sid (by (try dsimp only); omega), r5, h4v]
    exact {
      ext := e13.trans (MemExt.trans ⟨_, meq4⟩ ext47)
      xcont_device := dev1
      xcont_dtype := dt1
      xcont_contig := c1
      xmean_sid_ge := by (try dsimp only); omega
      xinv_sid := by (try dsimp only); omega
      len_eq := by (try dsimp only); omega
      xmean_device := dev6
      xmean_dtype := dt6.trans dt2
      xmean_contig := c6
      xinv_device := dev7
      xinv_dtype := dt7.trans dt2
      xinv_contig := c7
      rmean_same := fun h => absurd h hrm
      rvar_same := fun h => absurd h hrv
      rmean_cast := fun _ => ⟨dt4, by (try dsimp only); omega, hreadm⟩
      rvar_cast := fun _ => ⟨dt5, by (try dsimp only); omega, hreadv⟩
      rmean_lt_xmean := by (try dsimp only); omega
      rvar_lt_xmean := by (try dsimp only); omega
      rmean_ne_rvar := by (try dsimp only); omega }

lemma UpdateRunning_length (M : Mem) (r ru : Arr) :
    M.length ≤ (UpdateRunning M r ru).length := by
  by_cases h : r.dtype = ru.dtype
  · rw [UpdateRunning_same M r ru h]
  · rw [UpdateRunning_cast M r ru h]
    rw [Mem.length_write]
    simp

lemma UpdateRunning_read_other (M : Mem) (r ru : Arr) (j : ℕ) (hj1 : j ≠ r.sid)
    (hj2 : j < M.length) :
    (UpdateRunning M r ru).read j = M.read j := by
  by_cases h : r.dtype = ru.dtype
  · rw [UpdateRunning_same M r ru h]
  · rw [UpdateRunning_cast M r ru h,
      Mem.read_write_ne _ _ _ _ (fun hh => hj1 hh.symm),
      Mem.read_append_lt _ _ _ hj2]

lemma UpdateRunning_read_self_cast (M : Mem) (r ru : Arr) (h : r.dtype ≠ ru.dtype)
    (hr : r.sid < M.length) :
    (UpdateRunning M r ru).read r.sid = (M.read ru.sid).map (castVal r.dtype) := by
  rw [UpdateRunning_cast M r ru h]
  exact Mem.read_write_self _ _ _ (by simp; omega)

lemma forwardCall_ok (fe : ForwardEngine) (m : Mem) (x gamma beta rm rv : Arr)
    (eps decay : ℚ) (axis : List Int) (out : Arr) (retain : Bool)
    (mode : CudnnBatchNormMode)
    (heps : ¬eps < CUDNN_BN_MIN_EPSILON) (hcm : rm.isContiguous = true)
    (hcv : rv.isContiguous = true) (hax : GetBatchNormMode axis = .ok mode) :
    CudaBatchNormForwardOp.Call fe m x gamma beta rm rv eps decay axis out retain =
      .ok (forwardFinalMem fe m x gamma beta rm rv eps decay mode out,
        if retain then
          some ⟨(forwardLocals m x gamma beta rm rv).x_cont,
            (forwardLocals m x gamma beta rm rv).x_mean,
            (forwardLocals m x gamma beta rm rv).x_inv_std⟩
        else none) := by
  unfold CudaBatchNormForwardOp.Call
  rw [if_neg heps, hcm, hcv, hax]
  rfl

lemma forwardFinalMem_running_reads (fe : ForwardEngine) (m : Mem)
    (x gamma beta rm rv : Arr) (eps decay : ℚ) (mode : CudnnBatchNormMode) (out : Arr)
    (hx : x.sid < m.length) (hg : gamma.sid < m.length) (hbt : beta.sid < m.length)
    (hm : rm.sid < m.length) (hv : rv.sid < m.length) (hne : rm.sid ≠ rv.sid) :
    ((rm.dtype = cudnnDeriveBNParamDtype x.dtype →
      (forwardFinalMem fe m x gamma beta rm rv eps decay mode out).read rm.sid =
        (forwardEngineOut fe (forwardLocals m x gamma beta rm rv) mode eps decay).runningMean) ∧
    (rm.dtype ≠ cudnnDeriveBNParamDtype x.dtype →
      (forwardFinalMem fe m x gamma beta rm rv eps decay mode out).read rm.sid =
        ((forwardEngineOut fe (forwardLocals m x gamma beta rm rv) mode
          eps decay).runningMean).map (castVal rm.dtype)) ∧
    (rv.dtype = cudnnDeriveBNParamDtype x.dtype →
      (forwardFinalMem fe m x gamma beta rm rv eps decay mode out).read rv.sid =
        (forwardEngineOut fe (forwardLocals m x gamma beta rm rv) mode eps decay).runningVar) ∧
    (rv.dtype ≠ cudnnDeriveBNParamDtype x.dtype →
      (forwardFinalMem fe m x gamma beta rm rv eps decay mode out).read rv.sid =
        ((forwardEngineOut fe (forwardLocals m x gamma beta rm rv) mode
          eps decay).runningVar).map (castVal rv.dtype))) := by
  have F := forwardLocals_facts m x gamma beta rm rv hx hg hbt hm hv hne
  unfold forwardFinalMem
  generalize hL : forwardLocals m x gamma beta rm rv = L at F ⊢
  dsimp only
  generalize hr : forwardEngineOut fe L mode eps decay = r
  have hlenm : m.length ≤ L.mem.length := F.ext.len
  have hxm := F.xmean_sid_ge
  have hxi := F.xinv_sid
  have hlen := F.len_eq
  have hrmlt := F.rmean_lt_xmean
  have hrvlt := F.rvar_lt_xmean
  have hrmrv := F.rmean_ne_rvar
  have lw : ∀ (M : Mem) (i : ℕ) (d : Storage), (M.write i d).length = M.length :=
    Mem.length_write
  have len5 : (((((L.mem.write out.sid r.out).write L.running_mean_casted.sid
      r.runningMean).write L.running_var_casted.sid r.runningVar).write L.x_mean.sid
      r.saveMean).write L.x_inv_std.sid r.saveInvStd).length = L.mem.length := by
    rw [lw, lw, lw, lw, lw]
  have readm5 : (((((L.mem.write out.sid r.out).write L.running_mean_casted.sid
      r.runningMean).write L.running_var_casted.sid r.runningVar).write L.x_mean.sid
      r.saveMean).write L.x_inv_std.sid r.saveInvStd).read L.running_mean_casted.sid =
      r.runningMean := by
    rw [Mem.read_write_ne _ _ _ _ (by omega), Mem.read_write_ne _ _ _ _ (by omega),
      Mem.read_write_ne _ _ _ _ (fun hh => hrmrv hh.symm),
      Mem.read_write_self _ _ _ (by rw [lw]; omega)]
  have readv5 : (((((L.mem.write out.sid r.out).write L.running_mean_casted.sid
      r.runningMean).write L.running_var_casted.sid r.runningVar).write L.x_mean.sid
      r.saveMean).write L.x_inv_std.sid r.saveInvStd).read L.running_var_casted.sid =
      r.runningVar := by
    rw [Mem.read_write_ne _ _ _ _ (by omega), Mem.read_write_ne _ _ _ _ (by omega),
      Mem.read_write_self _ _ _ (by rw [lw, lw]; omega)]
  generalize hW : ((((L.mem.write out.sid r.out).write L.running_mean_casted.sid
      r.runningMean).write L.running_var_casted.sid r.runningVar).write L.x_mean.sid
      r.saveMean).write L.x_inv_std.sid r.saveInvStd = W at len5 readm5 readv5 ⊢
  refine ⟨?_, ?_, ?_, ?_⟩
  · intro hdm
    have hrme : L.running_mean_casted = rm := F.rmean_same hdm
    rw [hrme] at readm5
    rw [hrme, UpdateRunning_same W rm rm rfl]
    rw [UpdateRunning_read_other _ rv _ rm.sid hne (by omega), readm5]
  · intro hdm
    obtain ⟨hcd, hcs, _⟩ := F.rmean_cast hdm
    have hdm' : rm.dtype ≠ L.running_mean_casted.dtype := by rw [hcd]; exact hdm
    rw [UpdateRunning_read_other _ rv _ rm.sid hne
      (lt_of_lt_of_le (by omega) (UpdateRunning_length W rm L.running_mean_casted))]
    rw [UpdateRunning_read_self_cast W rm L.running_mean_casted hdm' (by omega), readm5]
  · intro hdv
    have hrve : L.running_var_casted = rv := F.rvar_same hdv
    rw [hrve] at readv5
    rw [hrve, UpdateRunning_same _ rv rv rfl]
    rw [UpdateRunning_read_other W rm _ rv.sid (fun hh => hne hh.symm) (by omega), readv5]
  · intro hdv
    obtain ⟨hcd, hcs, _⟩ := F.rvar_cast hdv
    have hdv' : rv.dtype ≠ L.running_var_casted.dtype := by rw [hcd]; exact hdv
    rw [UpdateRunning_read_self_cast _ rv L.running_var_casted hdv'
      (lt_of_lt_of_le (by omega) (UpdateRunning_length W rm L.running_mean_casted))]
    rw [UpdateRunning_read_other W rm _ L.running_var_casted.sid (by omega)
      (by omega), readv5]

lemma forwardCall_ok_elim (fe : ForwardEngine) (m : Mem) (x gamma beta rm rv : Arr)
    (eps decay : ℚ) (axis : List Int) (out : Arr) (retain : Bool)
    (mf : Mem) (so : Option CudaBatchNormState) (mode : CudnnBatchNormMode)
    (hax : GetBatchNormMode axis = .ok mode)
    (h : CudaBatchNormForwardOp.Call fe m x gamma beta rm rv eps decay axis out retain =
      .ok (mf, so)) :
    mf = forwardFinalMem fe m x gamma beta rm rv eps decay mode out ∧
      so = (if retain then
        some ⟨(forwardLocals m x gamma beta rm rv).x_cont,
          (forwardLocals m x gamma beta rm rv).x_mean,
          (forwardLocals m x gamma beta rm rv).x_inv_std⟩
      else none) := by
  have heps : ¬eps < CUDNN_BN_MIN_EPSILON := by
    intro hlt
    unfold CudaBatchNormForwardOp.Call at h
    rw [if_pos hlt] at h
    exact Except.noConfusion h
  have hcm : rm.isContiguous = true := by
    cases hb : rm.isContiguous
    · exfalso
      unfold CudaBatchNormForwardOp.Call at h
      rw [if_neg heps, hb] at h
      exact Except.noConfusion h
    · rfl
  have hcv : rv.isContiguous = true := by
    cases hb : rv.isContiguous
    · exfalso
      unfold CudaBatchNormForwardOp.Call at h
      rw [if_neg heps, hcm, hb] at h
      exact Except.noConfusion h
    · rfl
  rw [forwardCall_ok fe m x gamma beta rm rv eps decay axis out retain mode heps hcm hcv
    hax] at h
  rw [Except.ok.injEq, Prod.mk.injEq] at h
  exact ⟨h.1.symm, h.2.symm⟩

/-- Claim C1: the forward-training write-back of running statistics is
conditional.  For every successful forward-training call (with valid,
non-aliased running-statistic buffers): if a running statistic's dtype
differs from the derived engine parameter dtype (so it was cast before the
native call), the original tensor's storage afterwards holds exactly the
casted-back engine-updated values (a pure copy); if the dtypes already
matched, the casted array is the original array itself (no temporary), the
write-back step `UpdateRunning` performs no copy at all, and the original
storage holds the engine's in-place-updated values. -/
theorem forward_running_writeback_conditional (fe : ForwardEngine) (m : Mem)
    (x gamma beta rm rv : Arr) (eps decay : ℚ) (axis : List Int) (out : Arr)
    (retain : Bool) (mf : Mem) (so : Option CudaBatchNormState)
    (mode : CudnnBatchNormMode)
    (hax : GetBatchNormMode axis = .ok mode)
    (h : CudaBatchNormForwardOp.Call fe m x gamma beta rm rv eps decay axis out retain =
      .ok (mf, so))
    (hx : x.sid < m.length) (hg : gamma.sid < m.length) (hbt : beta.sid < m.length)
    (hm : rm.sid < m.length) (hv : rv.sid < m.length) (hne : rm.sid ≠ rv.sid) :
    (rm.dtype ≠ cudnnDeriveBNParamDtype x.dtype →
      mf.read rm.sid =
        ((forwardEngineOut fe (forwardLocals m x gamma beta rm rv) mode
          eps decay).runningMean).map (castVal rm.dtype)) ∧
    (rm.dtype = cudnnDeriveBNParamDtype x.dtype →
      (forwardLocals m x gamma beta rm rv).running_mean_casted = rm ∧
      (∀ mz : Mem, UpdateRunning mz rm
        (forwardLocals m x gamma beta rm rv).running_mean_casted = mz) ∧
      mf.read rm.sid =
        (forwardEngineOut fe (forwardLocals m x gamma beta rm rv) mode
          eps decay).runningMean) ∧
    (rv.dtype ≠ cudnnDeriveBNParamDtype x.dtype →
      mf.read rv.sid =
        ((forwardEngineOut fe (forwardLocals m x gamma beta rm rv) mode
          eps decay).runningVar).map (castVal rv.dtype)) ∧
    (rv.dtype = cudnnDeriveBNParamDtype x.dtype →
      (forwardLocals m x gamma beta rm rv).running_var_casted = rv ∧
      (∀ mz : Mem, UpdateRunning mz rv
        (forwardLocals m x gamma beta rm rv).running_var_casted = mz) ∧
      mf.read rv.sid =
        (forwardEngineOut fe (forwardLocals m x gamma beta rm rv) mode
          eps decay).runningVar) := by
  obtain ⟨hmf, -⟩ := forwardCall_ok_elim fe m x gamma beta rm rv eps decay axis out retain
    mf so mode hax h
  subst hmf
  have R := forwardFinalMem_running_reads fe m x gamma beta rm rv eps decay mode out
    hx hg hbt hm hv hne
  have F := forwardLocals_facts m x gamma beta rm rv hx hg hbt hm hv hne
  refine ⟨R.2.1, fun hdm => ⟨F.rmean_same hdm, fun mz => ?_, R.1 hdm⟩,
    R.2.2.2, fun hdv => ⟨F.rvar_same hdv, fun mz => ?_, R.2.2.1 hdv⟩⟩
  · exact UpdateRunning_same mz rm _ (by rw [F.rmean_same hdm])
  · exact UpdateRunning_same mz rv _ (by rw [F.rvar_same hdv])

/-- Witness for C1: the concrete forward call with a half-precision running
mean (cast occurred: the original storage receives the casted-back engine
values) and a single-precision running variance (no cast: the original
storage holds the engine's in-place-updated values). -/
theorem forward_running_writeback_conditional_witness :
    (forwardMemOf wMem wForwardRes).read wRM16.sid =
      ((forwardEngineOut cudnnBatchNormalizationForwardTraining
        (forwardLocals wMem wX16 wGamma wBeta wRM16 wRV32) CudnnBatchNormMode.PER_ACTIVATION
        1 (1 / 2)).runningMean).map (castVal Dtype.kFloat16) ∧
    (forwardMemOf wMem wForwardRes).read wRV32.sid =
      (forwardEngineOut cudnnBatchNormalizationForwardTraining
        (forwardLocals wMem wX16 wGamma wBeta wRM16 wRV32) CudnnBatchNormMode.PER_ACTIVATION
        1 (1 / 2)).runningVar := by
  have H := forward_running_writeback_conditional cudnnBatchNormalizationForwardTraining
    wMem wX16 wGamma wBeta wRM16 wRV32 1 (1 / 2) [0] wOut true
    (forwardMemOf wMem wForwardRes) (forwardStateOf wForwardRes) .PER_ACTIVATION
    (by decide) (by decide) (by decide) (by decide) (by decide) (by decide) (by decide)
    (by decide)
  exact ⟨H.1 (by decide), (H.2.2.2 (by decide)).2.2⟩

/-- Claim C3: for every successful forward-training call with the model
engine, the operator passes the exponential-average factor `1 - decay` to the
engine, and the updated running statistics follow the law
`new = decay * old + (1 - decay) * batch_statistic` (exactly in the model's
exact arithmetic; the values written back to a lower-precision original are
additionally rounded by the cast). -/
theorem forward_running_update_law (m : Mem) (x gamma beta rm rv : Arr)
    (eps decay : ℚ) (axis : List Int) (out : Arr) (retain : Bool)
    (mf : Mem) (so : Option CudaBatchNormState) (mode : CudnnBatchNormMode)
    (hax : GetBatchNormMode axis = .ok mode)
    (h : CudaBatchNormForwardOp.Call cudnnBatchNormalizationForwardTraining m x gamma beta
      rm rv eps decay axis out retain = .ok (mf, so))
    (hx : x.sid < m.length) (hg : gamma.sid < m.length) (hbt : beta.sid < m.length)
    (hm : rm.sid < m.length) (hv : rv.sid < m.length) (hne : rm.sid ≠ rv.sid) :
    (∀ fe : ForwardEngine,
      forwardEngineOut fe (forwardLocals m x gamma beta rm rv) mode eps decay =
        fe mode
          ((forwardLocals m x gamma beta rm rv).mem.read
            (forwardLocals m x gamma beta rm rv).x_cont.sid)
          ((forwardLocals m x gamma beta rm rv).mem.read
            (forwardLocals m x gamma beta rm rv).gamma_casted_cont.sid)
          ((forwardLocals m x gamma beta rm rv).mem.read
            (forwardLocals m x gamma beta rm rv).beta_casted_cont.sid)
          (1 - decay)
          ((forwardLocals m x gamma beta rm rv).mem.read
            (forwardLocals m x gamma beta rm rv).running_mean_casted.sid)
          ((forwardLocals m x gamma beta rm rv).mem.read
            (forwardLocals m x gamma beta rm rv).running_var_casted.sid)
          eps) ∧
    (rm.dtype = cudnnDeriveBNParamDtype x.dtype →
      mf.read rm.sid =
        ((forwardLocals m x gamma beta rm rv).mem.read
          (forwardLocals m x gamma beta rm rv).running_mean_casted.sid).map
          (fun old => decay * old + (1 - decay) *
            listMean ((forwardLocals m x gamma beta rm rv).mem.read
              (forwardLocals m x gamma beta rm rv).x_cont.sid))) ∧
    (rm.dtype ≠ cudnnDeriveBNParamDtype x.dtype →
      mf.read rm.sid =
        (((forwardLocals m x gamma beta rm rv).mem.read
          (forwardLocals m x gamma beta rm rv).running_mean_casted.sid).map
          (fun old => decay * old + (1 - decay) *
            listMean ((forwardLocals m x gamma beta rm rv).mem.read
              (forwardLocals m x gamma beta rm rv).x_cont.sid))).map
          (castVal rm.dtype)) ∧
    (rv.dtype = cudnnDeriveBNParamDtype x.dtype →
      mf.read rv.sid =
        ((forwardLocals m x gamma beta rm rv).mem.read
          (forwardLocals m x gamma beta rm rv).running_var_casted.sid).map
          (fun old => decay * old + (1 - decay) *
            listVariance ((forwardLocals m x gamma beta rm rv).mem.read
              (forwardLocals m x gamma beta rm rv).x_cont.sid))) ∧
    (rv.dtype ≠ cudnnDeriveBNParamDtype x.dtype →
      mf.read rv.sid =
        (((forwardLocals m x gamma beta rm rv).mem.read
          (forwardLocals m x gamma beta rm rv).running_var_casted.sid).map
          (fun old => decay * old + (1 - decay) *
            listVariance ((forwardLocals m x gamma beta rm rv).mem.read
              (forwardLocals m x gamma beta rm rv).x_cont.sid))).map
          (castVal rv.dtype)) := by
  obtain ⟨hmf, -⟩ := forwardCall_ok_elim cudnnBatchNormalizationForwardTraining m x gamma
    beta rm rv eps decay axis out retain mf so mode hax h
  subst hmf
  have R := forwardFinalMem_running_reads cudnnBatchNormalizationForwardTraining m x gamma
    beta rm rv eps decay mode out hx hg hbt hm hv hne
  have hmean : (forwardEngineOut cudnnBatchNormalizationForwardTraining
      (forwardLocals m x gamma beta rm rv) mode eps decay).runningMean =
      ((forwardLocals m x gamma beta rm rv).mem.read
        (forwardLocals m x gamma beta rm rv).running_mean_casted.sid).map
        (fun old => decay * old + (1 - decay) *
          listMean ((forwardLocals m x gamma beta rm rv).mem.read
            (forwardLocals m x gamma beta rm rv).x_cont.sid)) := by
    unfold forwardEngineOut cudnnBatchNormalizationForwardTraining
    refine List.map_congr_left (fun a _ => ?_)
    ring
  have hvar : (forwardEngineOut cudnnBatchNormalizationForwardTraining
      (forwardLocals m x gamma beta rm rv) mode eps decay).runningVar =
      ((forwardLocals m x gamma beta rm rv).mem.read
        (forwardLocals m x gamma beta rm rv).running_var_casted.sid).map
        (fun old => decay * old + (1 - decay) *
          listVariance ((forwardLocals m x gamma beta rm rv).mem.read
            (forwardLocals m x gamma beta rm rv).x_cont.sid)) := by
    unfold forwardEngineOut cudnnBatchNormalizationForwardTraining
    refine List.map_congr_left (fun a _ => ?_)
    ring
  refine ⟨fun fe => rfl, fun hdm => ?_, fun hdm => ?_, fun hdv => ?_, fun hdv => ?_⟩
  · rw [R.1 hdm, hmean]
  · rw [R.2.1 hdm, hmean]
  · rw [R.2.2.1 hdv, hvar]
  · rw [R.2.2.2 hdv, hvar]

/-- Witness for C3: the update law evaluated at the concrete forward call
(the casted running mean is rounded back to half precision; the uncasted
running variance holds the law's value exactly). -/
theorem forward_running_update_law_witness :
    (forwardMemOf wMem wForwardRes).read wRV32.sid =
      ((forwardLocals wMem wX16 wGamma wBeta wRM16 wRV32).mem.read
        (forwardLocals wMem wX16 wGamma wBeta wRM16 wRV32).running_var_casted.sid).map
        (fun old => (1 / 2) * old + (1 - 1 / 2) *
          listVariance ((forwardLocals wMem wX16 wGamma wBeta wRM16 wRV32).mem.read
            (forwardLocals wMem wX16 wGamma wBeta wRM16 wRV32).x_cont.sid)) := by
  have H := forward_running_update_law wMem wX16 wGamma wBeta wRM16 wRV32 1 (1 / 2) [0]
    wOut true (forwardMemOf wMem wForwardRes) (forwardStateOf wForwardRes) .PER_ACTIVATION
    (by decide) (by decide) (by decide) (by decide) (by decide) (by decide) (by decide)
    (by decide)
  exact H.2.2.2.1 (by decide)

lemma backwardLocals_facts (m : Mem) (x_cont gamma gout : Arr) (axis : List Int)
    (hgout : gout.sid < m.length) (hgamma : gamma.sid < m.length) :
    BackwardLocalsFacts m (backwardLocals m x_cont gamma gout axis) := by
  dsimp only [backwardLocals]
  have S1 := AsContiguous_spec m gout hgout
  generalize hq1 : AsContiguous m gout = q1
  rw [hq1] at S1
  obtain ⟨e1, s1, dev1, dt1, sh1, c1, r1, len1⟩ := S1
  have e1len := e1.len
  have S2 := EmptyLike_spec q1.1 x_cont x_cont.device
  generalize hq2 : EmptyLike q1.1 x_cont x_cont.device = q2
  rw [hq2] at S2
  obtain ⟨meq2, sid2, len2, dev2, dt2, sh2, c2⟩ := S2
  have hg2 : gamma.sid < q2.1.length := by omega
  have S3 := AsContiguousCast_spec q2.1 gamma (cudnnDeriveBNParamDtype x_cont.dtype) hg2
  generalize hq3 : AsContiguousCast q2.1 gamma (cudnnDeriveBNParamDtype x_cont.dtype) = q3
  rw [hq3] at S3
  obtain ⟨e3, s3, dev3, dt3, sh3, c3, len3⟩ := S3
  have e3len := e3.len
  have S4 := Empty_spec q3.1 (ReduceShape x_cont.shape axis)
    (cudnnDeriveBNParamDtype x_cont.dtype) x_cont.device
  generalize hq4 : Empty q3.1 (ReduceShape x_cont.shape axis)
    (cudnnDeriveBNParamDtype x_cont.dtype) x_cont.device = q4
  rw [hq4] at S4
  obtain ⟨meq4, sid4, len4, dev4, dt4, sh4, c4⟩ := S4
  have S5 := Empty_spec q4.1 (ReduceShape x_cont.shape axis)
    (cudnnDeriveBNParamDtype x_cont.dtype) x_cont.device
  generalize hq5 : Empty q4.1 (ReduceShape x_cont.shape axis)
    (cudnnDeriveBNParamDtype x_cont.dtype) x_cont.device = q5
  rw [hq5] at S5
  obtain ⟨meq5, sid5, len5, dev5, dt5, sh5, c5⟩ := S5
  exact {
    ext := e1.trans (MemExt.trans ⟨_, meq2⟩ (e3.trans (MemExt.trans ⟨_, meq4⟩ ⟨_, meq5⟩)))
    gxc_ge := by (try dsimp only); omega
    gxc_lt_gg := by (try dsimp only); omega
    gb_succ := by (try dsimp only); omega
    len_eq := by (try dsimp only); omega }

lemma backwardCall_ok_elim (be : BackwardEngine) (m : Mem) (x gamma gout : Arr)
    (eps : ℚ) (axis : List Int) (gx ggamma gbeta : Arr) (st : CudaBatchNormState)
    (mf : Mem) (mode : CudnnBatchNormMode)
    (hax : GetBatchNormMode axis = .ok mode)
    (h : CudaBatchNormBackwardOp.Call be m x gamma gout eps axis gx ggamma gbeta
      (some st) = .ok mf) :
    mf = backwardFinalMem be m gamma gout eps axis gx ggamma gbeta st mode := by
  simp only [CudaBatchNormBackwardOp.Call] at h
  have heps : ¬eps < CUDNN_BN_MIN_EPSILON := by
    intro hlt
    rw [if_pos hlt] at h
    exact Except.noConfusion h
  rw [if_neg heps, hax] at h
  rw [Except.ok.injEq] at h
  exact h.symm

/-- Claim C7: the backward cast-back is unconditional.  For every successful
backward call (with valid, non-aliased caller gradient buffers), the final
contents of `gx`, `ggamma` and `gbeta` are exactly the engine's gradient
outputs converted to the caller-requested dtypes, with no dtype-equality
condition anywhere — unlike the forward running-statistic write-back, the
conversion is always performed. -/
theorem backward_castback_unconditional (be : BackwardEngine) (m : Mem)
    (x gamma gout : Arr) (eps : ℚ) (axis : List Int) (gx ggamma gbeta : Arr)
    (st : CudaBatchNormState) (mf : Mem) (mode : CudnnBatchNormMode)
    (hax : GetBatchNormMode axis = .ok mode)
    (h : CudaBatchNormBackwardOp.Call be m x gamma gout eps axis gx ggamma gbeta
      (some st) = .ok mf)
    (hgout : gout.sid < m.length) (hgamma : gamma.sid < m.length)
    (hgx : gx.sid < m.length) (hgg : ggamma.sid < m.length) (hgb : gbeta.sid < m.length)
    (d1 : gx.sid ≠ ggamma.sid) (d2 : gx.sid ≠ gbeta.sid) (d3 : ggamma.sid ≠ gbeta.sid) :
    mf.read gx.sid =
      ((backwardEngineOut be (backwardLocals m st.x_cont gamma gout axis) st mode
        eps).gx).map (castVal gx.dtype) ∧
    mf.read ggamma.sid =
      ((backwardEngineOut be (backwardLocals m st.x_cont gamma gout axis) st mode
        eps).ggamma).map (castVal ggamma.dtype) ∧
    mf.read gbeta.sid =
      ((backwardEngineOut be (backwardLocals m st.x_cont gamma gout axis) st mode
        eps).gbeta).map (castVal gbeta.dtype) := by
  obtain rfl := backwardCall_ok_elim be m x gamma gout eps axis gx ggamma gbeta st mf
    mode hax h
  have BF := backwardLocals_facts m st.x_cont gamma gout axis hgout hgamma
  unfold backwardFinalMem DeviceAsType
  generalize hL : backwardLocals m st.x_cont gamma gout axis = L at BF ⊢
  dsimp only
  generalize hr : backwardEngineOut be L st mode eps = r
  have hext := BF.ext.len
  have h1 := BF.gxc_ge
  have h2 := BF.gxc_lt_gg
  have h3 := BF.gb_succ
  have h4 := BF.len_eq
  have lw : ∀ (M : Mem) (i : ℕ) (d : Storage), (M.write i d).length = M.length :=
    Mem.length_write
  have lenM3 : ((((L.mem.write L.gx_cont.sid r.gx).write L.ggamma_casted_cont.sid
      r.ggamma).write L.gbeta_casted_cont.sid r.gbeta)).length = L.mem.length := by
    rw [lw, lw, lw]
  have A : ((((L.mem.write L.gx_cont.sid r.gx).write L.ggamma_casted_cont.sid
      r.ggamma).write L.gbeta_casted_cont.sid r.gbeta)).read L.gx_cont.sid = r.gx := by
    rw [Mem.read_write_ne _ _ _ _ (by omega), Mem.read_write_ne _ _ _ _ (by omega),
      Mem.read_write_self _ _ _ (by omega)]
  have A2 : ((((L.mem.write L.gx_cont.sid r.gx).write L.ggamma_casted_cont.sid
      r.ggamma).write L.gbeta_casted_cont.sid r.gbeta)).read L.ggamma_casted_cont.sid =
      r.ggamma := by
    rw [Mem.read_write_ne _ _ _ _ (by omega),
      Mem.read_write_self _ _ _ (by rw [lw]; omega)]
  have A3 : ((((L.mem.write L.gx_cont.sid r.gx).write L.ggamma_casted_cont.sid
      r.ggamma).write L.gbeta_casted_cont.sid r.gbeta)).read L.gbeta_casted_cont.sid =
      r.gbeta := by
    rw [Mem.read_write_self _ _ _ (by rw [lw, lw]; omega)]
  generalize hm3 : (((L.mem.write L.gx_cont.sid r.gx).write L.ggamma_casted_cont.sid
      r.ggamma).write L.gbeta_casted_cont.sid r.gbeta) = M3 at lenM3 A A2 A3 ⊢
  rw [A]
  have B2 : (M3.write gx.sid ((r.gx).map (castVal gx.dtype))).read
      L.ggamma_casted_cont.sid = r.ggamma := by
    rw [Mem.read_write_ne _ _ _ _ (by omega), A2]
  rw [B2]
  have B3 : ((M3.write gx.sid ((r.gx).map (castVal gx.dtype))).write ggamma.sid
      ((r.ggamma).map (castVal ggamma.dtype))).read L.gbeta_casted_cont.sid =
      r.gbeta := by
    rw [Mem.read_write_ne _ _ _ _ (by omega), Mem.read_write_ne _ _ _ _ (by omega), A3]
  rw [B3]
  refine ⟨?_, ?_, ?_⟩
  · rw [Mem.read_write_ne _ _ _ _ (fun hh => d2 hh.symm),
      Mem.read_write_ne _ _ _ _ (fun hh => d1 hh.symm),
      Mem.read_write_self _ _ _ (by omega)]
  · rw [Mem.read_write_ne _ _ _ _ (fun hh => d3 hh.symm),
      Mem.read_write_self _ _ _ (by rw [lw]; omega)]
  · rw [Mem.read_write_self _ _ _ (by rw [lw, lw]; omega)]

/-- Witness for C7: the concrete backward call writes the casted-back engine
gradients into all three caller buffers. -/
theorem backward_castback_unconditional_witness :
    (backwardMemOf wMem wBackwardRes).read wGX.sid =
      ((backwardEngineOut cudnnBatchNormalizationBackward
        (backwardLocals wMem wState.x_cont wGamma wBeta [0]) wState
        CudnnBatchNormMode.PER_ACTIVATION 1).gx).map (castVal Dtype.kFloat32) ∧
    (backwardMemOf wMem wBackwardRes).read wGG.sid =
      ((backwardEngineOut cudnnBatchNormalizationBackward
        (backwardLocals wMem wState.x_cont wGamma wBeta [0]) wState
        CudnnBatchNormMode.PER_ACTIVATION 1).ggamma).map (castVal Dtype.kFloat32) ∧
    (backwardMemOf wMem wBackwardRes).read wGB.sid =
      ((backwardEngineOut cudnnBatchNormalizationBackward
        (backwardLocals wMem wState.x_cont wGamma wBeta [0]) wState
        CudnnBatchNormMode.PER_ACTIVATION 1).gbeta).map (castVal Dtype.kFloat16) :=
  backward_castback_unconditional cudnnBatchNormalizationBackward wMem wX32 wGamma wBeta 1
    [0] wGX wGG wGB wState (backwardMemOf wMem wBackwardRes) .PER_ACTIVATION (by decide)
    (by decide) (by decide) (by decide) (by decide) (by decide) (by decide) (by decide)
    (by decide) (by decide)

lemma AsContiguous_ext (m : Mem) (a : Arr) : MemExt m (AsContiguous m a).1 := by
  unfold AsContiguous
  by_cases hc : a.isContiguous
  · rw [if_pos hc]
    exact MemExt.refl m
  · rw [if_neg hc]
    exact ⟨_, rfl⟩

lemma AsContiguousCast_ext (m : Mem) (a : Arr) (dt : Dtype) :
    MemExt m (AsContiguousCast m a dt).1 := by
  unfold AsContiguousCast
  by_cases hc : a.isContiguous ∧ a.dtype = dt
  · rw [if_pos hc]
    exact MemExt.refl m
  · rw [if_neg hc]
    exact ⟨_, rfl⟩

lemma fixedLocals_ext (m : Mem) (x gamma beta mean var : Arr) :
    MemExt m (fixedLocals m x gamma beta mean var).mem := by
  dsimp only [fixedLocals]
  exact ((((AsContiguous_ext m x).trans
    (AsContiguousCast_ext _ gamma _)).trans
    (AsContiguousCast_ext _ beta _)).trans
    (AsContiguousCast_ext _ mean _)).trans
    (AsContiguousCast_ext _ var _)

lemma fixedCall_ok_elim (ie : InferenceEngine) (m : Mem) (x gamma beta mean var : Arr)
    (eps : ℚ) (axis : List Int) (out : Arr) (mf : Mem) (mode : CudnnBatchNormMode)
    (hax : GetBatchNormMode axis = .ok mode)
    (h : CudaFixedBatchNormForwardOp.Call ie m x gamma beta mean var eps axis out =
      .ok mf) :
    mf = (fixedLocals m x gamma beta mean var).mem.write out.sid
      (fixedEngineOut ie (fixedLocals m x gamma beta mean var) mode eps) := by
  unfold CudaFixedBatchNormForwardOp.Call at h
  have heps : ¬eps < CUDNN_BN_MIN_EPSILON := by
    intro hlt
    rw [if_pos hlt] at h
    exact Except.noConfusion h
  rw [if_neg heps, hax] at h
  rw [Except.ok.injEq] at h
  exact h.symm

/-- Claim C9: the fixed (inference) forward operator never mutates its `mean`
and `variance` input tensors: after every successful call their storages hold
exactly the values they held before (the operator reads them only through
casted contiguous copies, and writes only `out` and fresh buffers).  The
operator's signature neither consumes nor produces a state object: its result
is memory only. -/
theorem fixed_forward_does_not_mutate_mean_var (ie : InferenceEngine) (m : Mem)
    (x gamma beta mean var : Arr) (eps : ℚ) (axis : List Int) (out : Arr) (mf : Mem)
    (mode : CudnnBatchNormMode)
    (hax : GetBatchNormMode axis = .ok mode)
    (h : CudaFixedBatchNormForwardOp.Call ie m x gamma beta mean var eps axis out =
      .ok mf)
    (hmean : mean.sid < m.length) (hvar : var.sid < m.length)
    (hmo : mean.sid ≠ out.sid) (hvo : var.sid ≠ out.sid) :
    mf.read mean.sid = m.read mean.sid ∧ mf.read var.sid = m.read var.sid := by
  obtain rfl := fixedCall_ok_elim ie m x gamma beta mean var eps axis out mf mode hax h
  have E := fixedLocals_ext m x gamma beta mean var
  constructor
  · rw [Mem.read_write_ne _ _ _ _ (fun hh => hmo hh.symm), E.read mean.sid hmean]
  · rw [Mem.read_write_ne _ _ _ _ (fun hh => hvo hh.symm), E.read var.sid hvar]

/-- Witness for C9: the concrete fixed-forward call leaves the mean and
variance buffers untouched. -/
theorem fixed_forward_does_not_mutate_mean_var_witness :
    (backwardMemOf wMem (CudaFixedBatchNormForwardOp.Call
      cudnnBatchNormalizationForwardInference wMem wX32 wGamma wBeta wGX wGG 1 [0]
      wGB)).read wGX.sid = wMem.read wGX.sid ∧
    (backwardMemOf wMem (CudaFixedBatchNormForwardOp.Call
      cudnnBatchNormalizationForwardInference wMem wX32 wGamma wBeta wGX wGG 1 [0]
      wGB)).read wGG.sid = wMem.read wGG.sid :=
  fixed_forward_does_not_mutate_mean_var cudnnBatchNormalizationForwardInference wMem wX32
    wGamma wBeta wGX wGG 1 [0] wGB
    (backwardMemOf wMem (CudaFixedBatchNormForwardOp.Call
      cudnnBatchNormalizationForwardInference wMem wX32 wGamma wBeta wGX wGG 1 [0] wGB))
    .PER_ACTIVATION (by decide) (by decide) (by decide) (by decide) (by decide) (by decide)

/-- Claim C2 (amended): for every successful state-retaining forward-training
call, the three state fields all reside on the input's device and are all
contiguous; the batch mean and the batch inverse standard deviation share the
derived engine parameter dtype; the stored contiguous input keeps the input's
dtype, so all three fields share one dtype exactly when the derived parameter
dtype equals the input dtype (which fails for half-precision inputs, where
the engine derives single-precision parameters). -/
theorem forward_state_invariant (fe : ForwardEngine) (m : Mem)
    (x gamma beta rm rv : Arr) (eps decay : ℚ) (axis : List Int) (out : Arr)
    (mf : Mem) (st : CudaBatchNormState) (mode : CudnnBatchNormMode)
    (hax : GetBatchNormMode axis = .ok mode)
    (h : CudaBatchNormForwardOp.Call fe m x gamma beta rm rv eps decay axis out true =
      .ok (mf, some st))
    (hx : x.sid < m.length) (hg : gamma.sid < m.length) (hbt : beta.sid < m.length)
    (hm : rm.sid < m.length) (hv : rv.sid < m.length) (hne : rm.sid ≠ rv.sid) :
    st.x_cont.device = x.device ∧ st.x_mean.device = x.device ∧
    st.x_inv_std.device = x.device ∧
    st.x_cont.isContiguous = true ∧ st.x_mean.isContiguous = true ∧
    st.x_inv_std.isContiguous = true ∧
    st.x_cont.dtype = x.dtype ∧
    st.x_mean.dtype = cudnnDeriveBNParamDtype x.dtype ∧
    st.x_inv_std.dtype = cudnnDeriveBNParamDtype x.dtype ∧
    (cudnnDeriveBNParamDtype x.dtype = x.dtype →
      st.x_cont.dtype = st.x_mean.dtype ∧ st.x_mean.dtype = st.x_inv_std.dtype) := by
  obtain ⟨-, hso⟩ := forwardCall_ok_elim fe m x gamma beta rm rv eps decay axis out true
    mf (some st) mode hax h
  rw [if_pos rfl, Option.some.injEq] at hso
  have F := forwardLocals_facts m x gamma beta rm rv hx hg hbt hm hv hne
  rw [hso]
  exact ⟨F.xcont_device, F.xmean_device, F.xinv_device, F.xcont_contig, F.xmean_contig,
    F.xinv_contig, F.xcont_dtype, F.xmean_dtype, F.xinv_dtype,
    fun hde => ⟨(F.xcont_dtype.trans hde.symm).trans F.xmean_dtype.symm,
      F.xmean_dtype.trans F.xinv_dtype.symm⟩⟩

/-- Counterexample to C2 as stated: for a half-precision input the retained
state's contiguous input copy keeps dtype `kFloat16` while the batch mean and
inverse standard deviation have the derived parameter dtype `kFloat32`, so
the three fields do not all share one floating-point dtype. -/
theorem forward_state_invariant_counterexample :
    stateFieldDtypes wForwardRes = some (.kFloat16, .kFloat32, .kFloat32) ∧
    Dtype.kFloat16 ≠ Dtype.kFloat32 := ⟨by decide, by decide⟩

/-- Witness for C2: the amended invariant evaluated at the concrete forward
call with a half-precision input. -/
theorem forward_state_invariant_witness :
    wForwardState.x_cont.device = wX16.device ∧ wForwardState.x_mean.device = wX16.device ∧
    wForwardState.x_inv_std.device = wX16.device ∧
    wForwardState.x_cont.isContiguous = true ∧ wForwardState.x_mean.isContiguous = true ∧
    wForwardState.x_inv_std.isContiguous = true ∧
    wForwardState.x_cont.dtype = wX16.dtype ∧
    wForwardState.x_mean.dtype = cudnnDeriveBNParamDtype wX16.dtype ∧
    wForwardState.x_inv_std.dtype = cudnnDeriveBNParamDtype wX16.dtype := by
  have H := forward_state_invariant cudnnBatchNormalizationForwardTraining wMem wX16
    wGamma wBeta wRM16 wRV32 1 (1 / 2) [0] wOut (forwardMemOf wMem wForwardRes)
    wForwardState .PER_ACTIVATION (by decide) (by decide) (by decide) (by decide)
    (by decide) (by decide) (by decide) (by decide)
  exact ⟨H.1, H.2.1, H.2.2.1, H.2.2.2.1, H.2.2.2.2.1, H.2.2.2.2.2.1, H.2.2.2.2.2.2.1,
    H.2.2.2.2.2.2.2.1, H.2.2.2.2.2.2.2.2.1⟩

/-- Claim C6 (amended): for each of the three operators, an eps strictly
below the engine minimum is rejected with the engine configuration error
before any engine invocation (for the backward operator this holds for calls
whose state argument is present, since the missing-state assertion precedes
the eps check), while an eps exactly equal to the minimum passes the check
and the call proceeds (succeeds whenever its remaining validation passes). -/
theorem eps_minimum_check_all_operators (fe : ForwardEngine) (be : BackwardEngine)
    (ie : InferenceEngine) (m : Mem) (x gamma beta rm rv gout gx ggamma gbeta mean var : Arr)
    (eps decay : ℚ) (axis : List Int) (out : Arr) (retain : Bool)
    (st : CudaBatchNormState) (mode : CudnnBatchNormMode) :
    (eps < CUDNN_BN_MIN_EPSILON →
      CudaBatchNormForwardOp.Call fe m x gamma beta rm rv eps decay axis out retain =
        .error (.CudnnError eps)) ∧
    (eps < CUDNN_BN_MIN_EPSILON →
      CudaBatchNormBackwardOp.Call be m x gamma gout eps axis gx ggamma gbeta (some st) =
        .error (.CudnnError eps)) ∧
    (eps < CUDNN_BN_MIN_EPSILON →
      CudaFixedBatchNormForwardOp.Call ie m x gamma beta mean var eps axis out =
        .error (.CudnnError eps)) ∧
    (eps = CUDNN_BN_MIN_EPSILON → rm.isContiguous = true → rv.isContiguous = true →
      GetBatchNormMode axis = .ok mode →
      exceptOk (CudaBatchNormForwardOp.Call fe m x gamma beta rm rv eps decay axis out
        retain) = true) ∧
    (eps = CUDNN_BN_MIN_EPSILON → GetBatchNormMode axis = .ok mode →
      exceptOk (CudaBatchNormBackwardOp.Call be m x gamma gout eps axis gx ggamma gbeta
        (some st)) = true) ∧
    (eps = CUDNN_BN_MIN_EPSILON → GetBatchNormMode axis = .ok mode →
      exceptOk (CudaFixedBatchNormForwardOp.Call ie m x gamma beta mean var eps axis
        out) = true) := by
  refine ⟨fun hlt => ?_, fun hlt => ?_, fun hlt => ?_,
    fun heq hcm hcv hax => ?_, fun heq hax => ?_, fun heq hax => ?_⟩
  · unfold CudaBatchNormForwardOp.Call
    rw [if_pos hlt]
  · simp only [CudaBatchNormBackwardOp.Call]
    rw [if_pos hlt]
  · unfold CudaFixedBatchNormForwardOp.Call
    rw [if_pos hlt]
  · have hlt : ¬eps < CUDNN_BN_MIN_EPSILON := by rw [heq]; exact lt_irrefl _
    rw [forwardCall_ok fe m x gamma beta rm rv eps decay axis out retain mode hlt hcm hcv
      hax]
    rfl
  · have hlt : ¬eps < CUDNN_BN_MIN_EPSILON := by rw [heq]; exact lt_irrefl _
    simp only [CudaBatchNormBackwardOp.Call]
    rw [if_neg hlt, hax]
    rfl
  · have hlt : ¬eps < CUDNN_BN_MIN_EPSILON := by rw [heq]; exact lt_irrefl _
    unfold CudaFixedBatchNormForwardOp.Call
    rw [if_neg hlt, hax]
    rfl

/-- Counterexample to C6 as stated: a backward call whose state argument is
absent and whose eps is strictly below the minimum fails with the fatal
assertion, not with the configuration error, because the state assertion
precedes the eps check. -/
theorem eps_minimum_check_all_operators_counterexample :
    CudaBatchNormBackwardOp.Call cudnnBatchNormalizationBackward wMem wX32 wGamma wBeta 0
      [0] wGX wGG wGB none = .error .AssertionFailure ∧
    ChainerxError.AssertionFailure ≠ ChainerxError.CudnnError 0 := ⟨rfl, by decide⟩

/-- Witness for C6: eps `0` is rejected with the configuration error by all
three operators, and eps exactly `CUDNN_BN_MIN_EPSILON` succeeds for all
three. -/
theorem eps_minimum_check_all_operators_witness :
    CudaBatchNormForwardOp.Call cudnnBatchNormalizationForwardTraining wMem wX32 wGamma
      wBeta wRM16 wRV32 0 (1 / 2) [0] wOut false = .error (.CudnnError 0) ∧
    CudaBatchNormBackwardOp.Call cudnnBatchNormalizationBackward wMem wX32 wGamma wBeta 0
      [0] wGX wGG wGB (some wState) = .error (.CudnnError 0) ∧
    CudaFixedBatchNormForwardOp.Call cudnnBatchNormalizationForwardInference wMem wX32
      wGamma wBeta wGX wGG 0 [0] wGB = .error (.CudnnError 0) ∧
    exceptOk (CudaBatchNormForwardOp.Call cudnnBatchNormalizationForwardTraining wMem wX32
      wGamma wBeta wRM16 wRV32 CUDNN_BN_MIN_EPSILON (1 / 2) [0] wOut false) = true ∧
    exceptOk (CudaBatchNormBackwardOp.Call cudnnBatchNormalizationBackward wMem wX32
      wGamma wBeta CUDNN_BN_MIN_EPSILON [0] wGX wGG wGB (some wState)) = true ∧
    exceptOk (CudaFixedBatchNormForwardOp.Call cudnnBatchNormalizationForwardInference
      wMem wX32 wGamma wBeta wGX wGG CUDNN_BN_MIN_EPSILON [0] wGB) = true := by
  have H0 := eps_minimum_check_all_operators cudnnBatchNormalizationForwardTraining
    cudnnBatchNormalizationBackward cudnnBatchNormalizationForwardInference wMem wX32
    wGamma wBeta wRM16 wRV32 wBeta wGX wGG wGB wGX wGG 0 (1 / 2) [0] wOut false wState
    .PER_ACTIVATION
  have H1 := eps_minimum_check_all_operators cudnnBatchNormalizationForwardTraining
    cudnnBatchNormalizationBackward cudnnBatchNormalizationForwardInference wMem wX32
    wGamma wBeta wRM16 wRV32 wBeta wGX wGG wGB wGX wGG CUDNN_BN_MIN_EPSILON (1 / 2) [0]
    wOut false wState .PER_ACTIVATION
  exact ⟨H0.1 (by decide), H0.2.1 (by decide), H0.2.2.1 (by decide),
    H1.2.2.2.1 rfl rfl rfl (by decide), H1.2.2.2.2.1 rfl (by decide),
    H1.2.2.2.2.2 rfl (by decide)⟩

/-- Claim C8 (amended): for every forward-training call that passes the
minimum-epsilon check (which the operator performs first), a non-contiguous
running mean, or a non-contiguous running variance, raises the device error
before the native engine is invoked (the result is this error for every
engine). -/
theorem forward_noncontiguous_running_rejected (fe : ForwardEngine) (m : Mem)
    (x gamma beta rm rv : Arr) (eps decay : ℚ) (axis : List Int) (out : Arr)
    (retain : Bool) (heps : ¬eps < CUDNN_BN_MIN_EPSILON) :
    (rm.isContiguous = false →
      CudaBatchNormForwardOp.Call fe m x gamma beta rm rv eps decay axis out retain =
        .error .DeviceError) ∧
    (rm.isContiguous = true → rv.isContiguous = false →
      CudaBatchNormForwardOp.Call fe m x gamma beta rm rv eps decay axis out retain =
        .error .DeviceError) := by
  constructor
  · intro hb
    unfold CudaBatchNormForwardOp.Call
    rw [if_neg heps, hb]
    rfl
  · intro hcm hb
    unfold CudaBatchNormForwardOp.Call
    rw [if_neg heps, hcm, hb]
    rfl

/-- Counterexample to C8 as stated: a forward-training call whose running
mean is non-contiguous but whose eps is below the minimum raises the
configuration error, not the device/layout error, because the eps check is
performed first. -/
theorem forward_noncontiguous_running_rejected_counterexample :
    CudaBatchNormForwardOp.Call cudnnBatchNormalizationForwardTraining wMem wX32 wGamma
      wBeta wRMnc wRV32 0 (1 / 2) [0] wOut false = .error (.CudnnError 0) ∧
    ChainerxError.CudnnError 0 ≠ ChainerxError.DeviceError := ⟨by decide, by decide⟩

/-- Witness for C8: with a valid eps, a non-contiguous running mean and a
non-contiguous running variance are each rejected with the device error. -/
theorem forward_noncontiguous_running_rejected_witness :
    CudaBatchNormForwardOp.Call cudnnBatchNormalizationForwardTraining wMem wX32 wGamma
      wBeta wRMnc wRV32 1 (1 / 2) [0] wOut false = .error .DeviceError ∧
    CudaBatchNormForwardOp.Call cudnnBatchNormalizationForwardTraining wMem wX32 wGamma
      wBeta wRM16 wRVnc 1 (1 / 2) [0] wOut false = .error .DeviceError :=
  ⟨(forward_noncontiguous_running_rejected cudnnBatchNormalizationForwardTraining wMem
      wX32 wGamma wBeta wRMnc wRV32 1 (1 / 2) [0] wOut false (by decide)).1 rfl,
    (forward_noncontiguous_running_rejected cudnnBatchNormalizationForwardTraining wMem
      wX32 wGamma wBeta wRM16 wRVnc 1 (1 / 2) [0] wOut false (by decide)).2 rfl rfl⟩

/-- Claim C4: a backward call whose state argument is absent fails fatally
with the assertion failure from `CHAINERX_ASSERT(state.has_value())` and
returns no gradients: the operator never silently computes them. -/
theorem backward_without_state_asserts (be : BackwardEngine) (m : Mem)
    (x gamma gout : Arr) (eps : ℚ) (axis : List Int) (gx ggamma gbeta : Arr) :
    CudaBatchNormBackwardOp.Call be m x gamma gout eps axis gx ggamma gbeta none =
      .error .AssertionFailure := rfl

/-- Claim C10: the backward operator's result is independent of its `x`
argument: two backward calls differing only in `x` (same engine, memory,
gamma, gout, eps, axis, output buffers and state) produce identical results,
because the operator reads the input exclusively from the state's stored
contiguous copy. -/
theorem backward_independent_of_x (be : BackwardEngine) (m : Mem)
    (x1 x2 gamma gout : Arr) (eps : ℚ) (axis : List Int) (gx ggamma gbeta : Arr)
    (state : Option CudaBatchNormState) :
    CudaBatchNormBackwardOp.Call be m x1 gamma gout eps axis gx ggamma gbeta state =
      CudaBatchNormBackwardOp.Call be m x2 gamma gout eps axis gx ggamma gbeta state := rfl

end chainerx
